import Mathlib

/-! # Rencoder: quadrature decoder and button debouncer

A shallow embedding of `Rencoder.h` / `Rencoder.cpp`.  The object state is a
record of the data members of `class Encoder`; each member function is a pure
function on that record.  The values a member function obtains from the
platform (`digitalRead`, `micros`) are passed in as arguments, one argument
per call in the source.

Machine integers are `Nat` / `Int` with the conversions made explicit:
`byte` is reduced modulo `2^8`, `int16_t` is wrapped into `[-32768, 32767]`,
`unsigned long` is reduced modulo `2^32` and `long` is its two's-complement
reading.
-/

namespace Rencoder

/-! ## Machine integers -/

/-- Conversion to `byte` (`uint8_t`): the low eight bits. -/
def toByte (x : Nat) : Nat := x % 256

/-- Conversion to `int16_t`: reduction modulo `2^16` into `[-32768, 32767]`. -/
def toInt16 (x : Int) : Int := (x + 32768) % 65536 - 32768

/-- Conversion to `unsigned long` (32 bits on the boards this library targets). -/
def toULong (x : Nat) : Nat := x % 4294967296

/-- Subtraction of two `unsigned long` values: the difference modulo `2^32`. -/
def ulongSub (x y : Nat) : Nat := (toULong x + (4294967296 - toULong y)) % 4294967296

/-- The cast `(long) x` of an `unsigned long`: bit patterns from `2^31` upwards
read as negative numbers. -/
def toLong (x : Nat) : Int :=
  if toULong x < 2147483648 then (toULong x : Int) else (toULong x : Int) - 4294967296

/-- Bit pattern of `~x` for a non-negative `int` `x`.  The width of `int` is 16
or 32 bits according to the board; every use below keeps only the low eight
bits of the result, which are the same for both. -/
def intNot (x : Nat) : Nat := 4294967295 ^^^ x

/-! ## Constants of `Rencoder.h` and of the platform header -/

/-- Constant `ENCODER_DEBOUNCE_MICROS` of `Rencoder.h`. -/
abbrev ENCODER_DEBOUNCE_MICROS : Int := 10000

/-- Constant `ENCODER_DOUBLECLICKTIME` of `Rencoder.h`. -/
abbrev ENCODER_DOUBLECLICKTIME : Nat := 500000

/-- Bit number of the double-clicked flag in `statusRegister`. -/
abbrev statusButtonDoubleClickedBit : Nat := 4

/-- Bit number of the clicked flag in `statusRegister`. -/
abbrev statusButtonClickedBit : Nat := 2

/-- Bit number of the pressed flag in `statusRegister`. -/
abbrev statusButtonPressedBit : Nat := 1

/-- Bit number of the moved flag in `statusRegister`. -/
abbrev statusEncoderMovedBit : Nat := 0

/-- Pin level `HIGH` of the platform header (`Arduino.h`, value `0x1`).  The
button line is pulled up, so `HIGH` is the released level. -/
abbrev HIGH : Int := 1

/-- Pin level `LOW` of the platform header (`Arduino.h`, value `0x0`): the
pressed level. -/
abbrev LOW : Int := 0

/-! ## The object state -/

/-- Data members of `class Encoder`, in the order of their declaration. -/
structure Encoder where
  /-- Member `volatile byte statusRegister`. -/
  statusRegister : Nat
  /-- Member `volatile int16_t count`. -/
  count : Int
  /-- Member `volatile int16_t diff`. -/
  diff : Int
  /-- Member `uint8_t pinA`. -/
  pinA : Nat
  /-- Member `uint8_t pinB`. -/
  pinB : Nat
  /-- Member `int pinButton`. -/
  pinButton : Int
  /-- Member `volatile byte lastEncoded`. -/
  lastEncoded : Nat
  /-- Member `volatile unsigned long buttonLastClick`. -/
  buttonLastClick : Nat
  /-- Member `volatile unsigned long debounceMicros`. -/
  debounceMicros : Nat
  /-- Member `volatile int buttonState`. -/
  buttonState : Int
deriving DecidableEq

/-- Every member holds a value of its C++ type. -/
def Encoder.WF (e : Encoder) : Prop :=
  e.statusRegister < 256 ∧ (-32768 ≤ e.count ∧ e.count ≤ 32767) ∧
  (-32768 ≤ e.diff ∧ e.diff ≤ 32767) ∧ e.pinA < 256 ∧ e.pinB < 256 ∧
  e.lastEncoded < 256 ∧ e.buttonLastClick < 4294967296 ∧ e.debounceMicros < 4294967296

instance (e : Encoder) : Decidable e.WF :=
  inferInstanceAs (Decidable (_ ∧ _))

/-- The two interrupt entry points `encoderISR` and `buttonISR`. -/
inductive Handler where
  | encoderISR
  | buttonISR
deriving DecidableEq

/-- Calls made to the platform by `encoderSetup`: `pinMode(pin, INPUT_PULLUP)`
and `attachInterrupt(pin, handler, CHANGE)`, with the value passed as `pin`. -/
inductive HwCall where
  | pinMode (pin : Int)
  | attachInterrupt (pin : Int) (handler : Handler)
deriving DecidableEq

/-! ## Member functions -/

/-- Member function `Encoder::encoderSetup(uint8_t a, uint8_t b, uint8_t btn)`.
`now` is the value returned by the one call of `micros()`.  The result is the
object state together with the platform calls made, in order. -/
def encoderSetup (a b btn : Nat) (now : Nat) : Encoder × List HwCall :=
  let pinA := toByte a
  let pinB := toByte b
  let pinButton : Int := (toByte btn : Nat)
  let buttonLastClick := toULong now
  let e : Encoder :=
    { statusRegister := 0
      count := 0
      diff := 0
      pinA := pinA
      pinB := pinB
      pinButton := pinButton
      lastEncoded := 0
      buttonLastClick := buttonLastClick
      debounceMicros := buttonLastClick
      buttonState := HIGH }
  let calls : List HwCall :=
    [HwCall.pinMode pinA, HwCall.pinMode pinB,
     HwCall.attachInterrupt pinA Handler.encoderISR,
     HwCall.attachInterrupt pinB Handler.encoderISR]
  if pinButton ≥ 0 then
    (e, calls ++ [HwCall.pinMode pinButton, HwCall.attachInterrupt pinButton Handler.buttonISR])
  else
    (e, calls)

/-- Constructor `Encoder::Encoder(uint8_t a, uint8_t b)`: it passes `-1` for
the `uint8_t` parameter `btn`, which arrives as `255`. -/
def Encoder.new2 (a b : Nat) (now : Nat) : Encoder × List HwCall :=
  encoderSetup a b (Int.toNat ((-1 : Int) % 256)) now

/-- Constructor `Encoder::Encoder(uint8_t a, uint8_t b, uint8_t btn)`. -/
def Encoder.new3 (a b btn : Nat) (now : Nat) : Encoder × List HwCall :=
  encoderSetup a b btn now

/-- Member function `Encoder::getCount`. -/
def Encoder.getCount (e : Encoder) : Int := e.count

/-- Member function `Encoder::setCount(int16_t amount)`. -/
def Encoder.setCount (e : Encoder) (amount : Int) : Encoder :=
  { e with count := toInt16 amount }

/-- Member function `Encoder::getDiff(boolean clearValue)`: the returned value
and the state afterwards. -/
def Encoder.getDiff (e : Encoder) (clearValue : Bool) : Int × Encoder :=
  let diffReturn := e.diff
  if clearValue then (diffReturn, { e with diff := 0 }) else (diffReturn, e)

/-- Member function `Encoder::isMoved(boolean clearValue)`. -/
def Encoder.isMoved (e : Encoder) (clearValue : Bool) : Bool × Encoder :=
  let moved := decide (e.statusRegister &&& (1 <<< statusEncoderMovedBit) ≠ 0)
  if clearValue then
    (moved, { e with
      statusRegister := toByte (e.statusRegister &&& intNot (1 <<< statusEncoderMovedBit)) })
  else (moved, e)

/-- Member function `Encoder::isPressed(boolean clearValue)`. -/
def Encoder.isPressed (e : Encoder) (clearValue : Bool) : Bool × Encoder :=
  let pressed := decide (e.statusRegister &&& (1 <<< statusButtonPressedBit) ≠ 0)
  if clearValue then
    (pressed, { e with
      statusRegister := toByte (e.statusRegister &&& intNot (1 <<< statusButtonPressedBit)) })
  else (pressed, e)

/-- Member function `Encoder::isClicked(boolean clearValue)`. -/
def Encoder.isClicked (e : Encoder) (clearValue : Bool) : Bool × Encoder :=
  let clicked := decide (e.statusRegister &&& (1 <<< statusButtonClickedBit) ≠ 0)
  if clearValue then
    (clicked, { e with
      statusRegister := toByte (e.statusRegister &&& intNot (1 <<< statusButtonClickedBit)) })
  else (clicked, e)

/-- Member function `Encoder::isDoubleClicked(boolean clearValue)`. -/
def Encoder.isDoubleClicked (e : Encoder) (clearValue : Bool) : Bool × Encoder :=
  let doubleclicked := decide (e.statusRegister &&& (1 <<< statusButtonDoubleClickedBit) ≠ 0)
  if clearValue then
    (doubleclicked, { e with
      statusRegister := toByte (e.statusRegister &&& intNot (1 <<< statusButtonDoubleClickedBit)) })
  else (doubleclicked, e)

/-- Member function `Encoder::clear`. -/
def Encoder.clear (e : Encoder) : Encoder :=
  { e with statusRegister := 0 }

/-- Member function `Encoder::encoderInterrupt`.  `readA` and `readB` are the
values returned by `digitalRead(pinA)` and `digitalRead(pinB)`. -/
def Encoder.encoderInterrupt (e : Encoder) (readA readB : Nat) : Encoder :=
  let MSB := toByte readA
  let LSB := toByte readB
  let encoded := toByte ((MSB <<< 1) ||| LSB)
  let lastEncoded := toByte ((e.lastEncoded <<< 2) ||| encoded)
  let _sum := toByte ((lastEncoded <<< 2) ||| encoded)
  if lastEncoded = 0b01001011 then
    { e with
      lastEncoded := lastEncoded
      count := toInt16 (e.count + 1)
      diff := toInt16 (e.diff + 1)
      statusRegister := toByte (e.statusRegister ||| (1 <<< statusEncoderMovedBit)) }
  else if lastEncoded = 0b10000111 then
    { e with
      lastEncoded := lastEncoded
      count := toInt16 (e.count - 1)
      diff := toInt16 (e.diff - 1)
      statusRegister := toByte (e.statusRegister ||| (1 <<< statusEncoderMovedBit)) }
  else
    { e with lastEncoded := lastEncoded }

/-- Condition of the outer `if` of `Encoder::buttonInterrupt`:
`(long) (micros() - debounceMicros) >= ENCODER_DEBOUNCE_MICROS`, with `now` the
value returned by `micros()`. -/
def Encoder.debouncePassed (e : Encoder) (now : Nat) : Prop :=
  toLong (ulongSub now e.debounceMicros) ≥ ENCODER_DEBOUNCE_MICROS

instance (e : Encoder) (now : Nat) : Decidable (e.debouncePassed now) :=
  inferInstanceAs (Decidable (toLong (ulongSub now e.debounceMicros) ≥ ENCODER_DEBOUNCE_MICROS))

/-- Member function `Encoder::buttonInterrupt`.  `now1` is the value returned
by the call of `micros()` in the debounce test and `now2` the value returned by
the call whose result is stored in `debounceMicros`. -/
def Encoder.buttonInterrupt (e : Encoder) (now1 now2 : Nat) : Encoder :=
  if e.debouncePassed now1 then
    let debounceMicros := toULong now2
    if e.buttonState = LOW then
      let statusRegister := toByte (e.statusRegister ||| (1 <<< statusButtonClickedBit))
      let statusRegister :=
        if ulongSub debounceMicros e.buttonLastClick ≤ ENCODER_DOUBLECLICKTIME then
          toByte (statusRegister ||| (1 <<< statusButtonDoubleClickedBit))
        else statusRegister
      { e with
        debounceMicros := debounceMicros
        buttonState := HIGH
        statusRegister := statusRegister
        buttonLastClick := debounceMicros }
    else
      { e with
        debounceMicros := debounceMicros
        buttonState := LOW
        statusRegister := toByte (e.statusRegister ||| (1 <<< statusButtonPressedBit)) }
  else e

/-- The four status flags. -/
inductive Flag where
  | Moved
  | Pressed
  | Clicked
  | DoubleClicked
deriving DecidableEq

/-- Bit number of a flag in `statusRegister`, as declared in `Rencoder.h`. -/
def Flag.bit : Flag → Nat
  | Flag.Moved => statusEncoderMovedBit
  | Flag.Pressed => statusButtonPressedBit
  | Flag.Clicked => statusButtonClickedBit
  | Flag.DoubleClicked => statusButtonDoubleClickedBit

/-- The accessor of a flag: `isMoved`, `isPressed`, `isClicked` or
`isDoubleClicked`. -/
def Encoder.isFlag (e : Encoder) (X : Flag) (clearValue : Bool) : Bool × Encoder :=
  match X with
  | Flag.Moved => e.isMoved clearValue
  | Flag.Pressed => e.isPressed clearValue
  | Flag.Clicked => e.isClicked clearValue
  | Flag.DoubleClicked => e.isDoubleClicked clearValue

/-- Run of the quadrature interrupt handler over a sequence of pin readings
`(digitalRead(pinA), digitalRead(pinB))`, one call of `encoderInterrupt` per
reading, first reading first. -/
def Encoder.feed (e : Encoder) (samples : List (Nat × Nat)) : Encoder :=
  samples.foldl (fun s r => s.encoderInterrupt r.1 r.2) e

/-- A state used in the examples: the state set up at time `0` on pins 2, 3
and button pin 4. -/
def setupState : Encoder := (encoderSetup 2 3 4 0).1

/-- A state used in the examples: `setupState` after a button edge accepted at
10,000 microseconds, which leaves the button pressed. -/
def pressedState : Encoder := setupState.buttonInterrupt 10000 10000

/-- One call of a public member function: the interrupt handlers with the
values they read from the platform, and the foreground accessors with their
arguments. -/
inductive Op where
  | encoderInterrupt (readA readB : Nat)
  | buttonInterrupt (now1 now2 : Nat)
  | getCount
  | setCount (amount : Int)
  | getDiff (clearValue : Bool)
  | isFlag (X : Flag) (clearValue : Bool)
  | clear
deriving DecidableEq

/-- The state after one call. -/
def Encoder.exec (e : Encoder) : Op → Encoder
  | Op.encoderInterrupt readA readB => e.encoderInterrupt readA readB
  | Op.buttonInterrupt now1 now2 => e.buttonInterrupt now1 now2
  | Op.getCount => e
  | Op.setCount amount => e.setCount amount
  | Op.getDiff clearValue => (e.getDiff clearValue).2
  | Op.isFlag X clearValue => (e.isFlag X clearValue).2
  | Op.clear => e.clear

/-- The state after a sequence of calls, first call first. -/
def Encoder.run (e : Encoder) (ops : List Op) : Encoder :=
  ops.foldl Encoder.exec e

/-- The calls that are interrupt handlers. -/
def Op.isInterrupt : Op → Bool
  | Op.encoderInterrupt _ _ => true
  | Op.buttonInterrupt _ _ => true
  | _ => false

/-- Run of the button interrupt handler over a sequence of edges, each with
its two readings of `micros()`, first edge first. -/
def Encoder.feedButton (e : Encoder) (edges : List (Nat × Nat)) : Encoder :=
  edges.foldl (fun s t => s.buttonInterrupt t.1 t.2) e

/-- Number of button edges of a sequence that pass the debounce test when they
arrive. -/
def Encoder.acceptedCount (e : Encoder) : List (Nat × Nat) → Nat
  | [] => 0
  | t :: ts =>
    (if e.debouncePassed t.1 then 1 else 0) + (e.buttonInterrupt t.1 t.2).acceptedCount ts

/-- Number of steps of a run of the quadrature handler at which `count`
changes. -/
def Encoder.indentCount (e : Encoder) : List (Nat × Nat) → Nat
  | [] => 0
  | r :: rs =>
    (if (e.encoderInterrupt r.1 r.2).count ≠ e.count then 1 else 0)
      + (e.encoderInterrupt r.1 r.2).indentCount rs

/-- For an edge history `h`, a number of coming readings that cannot complete
a pattern: three right after a pattern or after setup (`h` is `0b01001011`,
`0b10000111` or `0`), then two, then one, as the old symbols shift out. -/
def quietSteps (h : Nat) : Nat :=
  if h = 0 ∨ h = 0b01001011 ∨ h = 0b10000111 then 3
  else if h ≤ 3 ∨ (28 ≤ h ∧ h ≤ 31) ∨ (44 ≤ h ∧ h ≤ 47) then 2
  else if h ≤ 15 ∨ (112 ≤ h ∧ h ≤ 127) ∨ (176 ≤ h ∧ h ≤ 191) then 1
  else 0

/-- The latched reading of the pressed flag, in the words of the statement
proved as C12: one call turns the latch on when it is a button edge that
passes the debounce test while the button is released (an accepted press),
turns it off when it is `isPressed(true)` or `clear()`, and keeps it
otherwise. -/
def Encoder.specPressedLatch (e : Encoder) (latched : Bool) : Op → Bool
  | Op.buttonInterrupt now1 _ =>
    if e.debouncePassed now1 ∧ e.buttonState ≠ LOW then true else latched
  | Op.isFlag Flag.Pressed true => false
  | Op.clear => false
  | _ => latched

/-- The latch of `specPressedLatch` after a sequence of calls from state `e`,
first call first. -/
def Encoder.specPressedAfter (e : Encoder) (latched : Bool) : List Op → Bool
  | [] => latched
  | op :: ops => (e.exec op).specPressedAfter (e.specPressedLatch latched op) ops

/-- Execution of `getDiff(clearValue)` in which the interrupt handler call
`isr` runs after the statement `int16_t diffReturn = diff;` and before the
statement `if (clearValue) diff = 0;`. -/
def Encoder.getDiffPreempted (e : Encoder) (clearValue : Bool) (isr : Op) : Int × Encoder :=
  let diffReturn := e.diff
  let e := e.exec isr
  if clearValue then (diffReturn, { e with diff := 0 }) else (diffReturn, e)

/-- Execution of `isX(true)` in which the interrupt handler call `isr` runs
inside `statusRegister &= ~(1 << bit)`, after the read of `statusRegister` and
before the write-back of the masked value. -/
def Encoder.isFlagPreempted (e : Encoder) (X : Flag) (isr : Op) : Bool × Encoder :=
  let value := decide (e.statusRegister &&& (1 <<< X.bit) ≠ 0)
  let masked := toByte (e.statusRegister &&& intNot (1 <<< X.bit))
  let e := e.exec isr
  (value, { e with statusRegister := masked })

/-! ## Bit-level facts about the status register -/

/-- A mask test `x & (1 << k)` is non-zero exactly when bit `k` of `x` is set. -/
theorem and_bit_ne_zero_iff (x k : Nat) : x &&& (1 <<< k) ≠ 0 ↔ x.testBit k = true := by
  rw [Nat.one_shiftLeft]
  constructor
  · intro h
    by_contra hb
    apply h
    apply Nat.eq_of_testBit_eq
    intro i
    simp only [Nat.testBit_and, Nat.testBit_two_pow, Nat.zero_testBit, Bool.and_eq_false_imp,
      decide_eq_false_iff_not]
    intro hi hki
    subst hki
    exact hb hi
  · intro hb h0
    have h1 := congrArg (fun y => y.testBit k) h0
    simp [Nat.testBit_two_pow, hb] at h1

/-- Bits of a status register after `|= (1 << k)`. -/
theorem testBit_setBit (x k i : Nat) :
    (toByte (x ||| (1 <<< k))).testBit i = (decide (i < 8) && (x.testBit i || decide (k = i))) := by
  have h : toByte (x ||| (1 <<< k)) = (x ||| 2 ^ k) % 2 ^ 8 := by
    rw [Nat.one_shiftLeft]; rfl
  rw [h, Nat.testBit_mod_two_pow, Nat.testBit_or, Nat.testBit_two_pow]

/-- Bits of a status register after `&= ~(1 << k)`. -/
theorem testBit_clearBit (x k i : Nat) :
    (toByte (x &&& intNot (1 <<< k))).testBit i =
      (decide (i < 8) && (x.testBit i && !decide (k = i))) := by
  have h : toByte (x &&& intNot (1 <<< k)) = (x &&& ((2 ^ 32 - 1) ^^^ 2 ^ k)) % 2 ^ 8 := by
    rw [Nat.one_shiftLeft]; rfl
  rw [h, Nat.testBit_mod_two_pow, Nat.testBit_and, Nat.testBit_xor, Nat.testBit_two_pow_sub_one,
    Nat.testBit_two_pow]
  by_cases h8 : i < 8
  · have h32 : i < 32 := by omega
    simp [h8, h32]
  · simp [h8]

/-- Setting bit `k` leaves every other bit of the byte as it was. -/
theorem testBit_setBit_of_ne (x k i : Nat) (hi : i < 8) (hk : k ≠ i) :
    (toByte (x ||| (1 <<< k))).testBit i = x.testBit i := by
  rw [testBit_setBit]; simp [hi, hk]

/-- Setting bit `k` of the byte sets it. -/
theorem testBit_setBit_self (x k : Nat) (hk : k < 8) :
    (toByte (x ||| (1 <<< k))).testBit k = true := by
  rw [testBit_setBit]; simp [hk]

/-- Clearing bit `k` leaves every other bit of the byte as it was. -/
theorem testBit_clearBit_of_ne (x k i : Nat) (hi : i < 8) (hk : k ≠ i) :
    (toByte (x &&& intNot (1 <<< k))).testBit i = x.testBit i := by
  rw [testBit_clearBit]; simp [hi, hk]

/-- Clearing bit `k` clears it. -/
theorem testBit_clearBit_self (x k : Nat) :
    (toByte (x &&& intNot (1 <<< k))).testBit k = false := by
  rw [testBit_clearBit]; simp

/-- The boolean read by a flag accessor is bit `k` of the status register. -/
theorem decide_and_bit (x k : Nat) : decide (x &&& (1 <<< k) ≠ 0) = x.testBit k := by
  by_cases h : x.testBit k = true
  · rw [h]; exact decide_eq_true ((and_bit_ne_zero_iff x k).2 h)
  · have h1 : ¬ (x &&& (1 <<< k) ≠ 0) := fun hne => h ((and_bit_ne_zero_iff x k).1 hne)
    rw [Bool.not_eq_true] at h
    rw [h]; exact decide_eq_false h1

theorem isMoved_fst (e : Encoder) (c : Bool) :
    (e.isMoved c).1 = e.statusRegister.testBit statusEncoderMovedBit := by
  cases c <;> exact decide_and_bit _ _

theorem isPressed_fst (e : Encoder) (c : Bool) :
    (e.isPressed c).1 = e.statusRegister.testBit statusButtonPressedBit := by
  cases c <;> exact decide_and_bit _ _

theorem isClicked_fst (e : Encoder) (c : Bool) :
    (e.isClicked c).1 = e.statusRegister.testBit statusButtonClickedBit := by
  cases c <;> exact decide_and_bit _ _

theorem isDoubleClicked_fst (e : Encoder) (c : Bool) :
    (e.isDoubleClicked c).1 = e.statusRegister.testBit statusButtonDoubleClickedBit := by
  cases c <;> exact decide_and_bit _ _

/-! ## The quadrature decoder -/

/-- The value `encoderInterrupt` stores in `lastEncoded`, for pin readings in `{0, 1}`. -/
theorem encoderInterrupt_lastEncoded (e : Encoder) (a b : Nat) (ha : a ≤ 1) (hb : b ≤ 1) :
    (e.encoderInterrupt a b).lastEncoded
      = ((e.lastEncoded <<< 2) ||| ((a <<< 1) ||| b)) % 256 := by
  have h1 : toByte (toByte a <<< 1 ||| toByte b) = (a <<< 1) ||| b := by
    interval_cases a <;> interval_cases b <;> rfl
  unfold Encoder.encoderInterrupt
  simp only [h1]
  split_ifs <;> rfl

/-- Within the range of `int16_t`, and away from its upper end, `toInt16` after
`+ 1` is the plain successor. -/
theorem toInt16_succ (x : Int) (h1 : -32768 ≤ x) (h2 : x < 32767) : toInt16 (x + 1) = x + 1 := by
  unfold toInt16; omega

/-- Within the range of `int16_t`, and away from its lower end, `toInt16` after
`- 1` is the plain predecessor. -/
theorem toInt16_pred (x : Int) (h1 : -32768 < x) (h2 : x ≤ 32767) : toInt16 (x - 1) = x - 1 := by
  unfold toInt16; omega

/-- The three cases of `encoderInterrupt`, by the value stored in `lastEncoded`. -/
theorem encoderInterrupt_cases (e : Encoder) (a b : Nat) :
    ((e.encoderInterrupt a b).lastEncoded = 0b01001011 →
      e.encoderInterrupt a b =
        { e with
          lastEncoded := 0b01001011
          count := toInt16 (e.count + 1)
          diff := toInt16 (e.diff + 1)
          statusRegister := toByte (e.statusRegister ||| (1 <<< statusEncoderMovedBit)) }) ∧
    ((e.encoderInterrupt a b).lastEncoded = 0b10000111 →
      e.encoderInterrupt a b =
        { e with
          lastEncoded := 0b10000111
          count := toInt16 (e.count - 1)
          diff := toInt16 (e.diff - 1)
          statusRegister := toByte (e.statusRegister ||| (1 <<< statusEncoderMovedBit)) }) ∧
    ((e.encoderInterrupt a b).lastEncoded ≠ 0b01001011 →
      (e.encoderInterrupt a b).lastEncoded ≠ 0b10000111 →
      e.encoderInterrupt a b = { e with lastEncoded := (e.encoderInterrupt a b).lastEncoded }) := by
  unfold Encoder.encoderInterrupt
  simp only
  split_ifs with h1 h2
  · simp [h1]
  · simp [h2]
  · simp [h1, h2]

/-- C1: one step of the quadrature decoder, for every prior state and pin
readings `a`, `b` in `{0, 1}`.  The new `lastEncoded` (edge history) is
`((old << 2) | (a << 1 | b))` truncated to eight bits.  If it equals
`0b01001011`, `count` (position) and `diff` (delta) each go up by one, as
`int16_t` values (the plain successor unless the old value is `32767`), and the
moved flag is set.  If it equals `0b10000111`, both go down by one (the plain
predecessor unless the old value is `-32768`) and the moved flag is set.  For
every other history value `count`, `diff` and the whole status register, so the
moved flag too, are unchanged. -/
theorem C1_encoderInterrupt_step (e : Encoder) (a b : Nat) (ha : a ≤ 1) (hb : b ≤ 1) :
    (e.encoderInterrupt a b).lastEncoded
        = ((e.lastEncoded <<< 2) ||| ((a <<< 1) ||| b)) % 256 ∧
    ((e.encoderInterrupt a b).lastEncoded = 0b01001011 →
      (e.encoderInterrupt a b).count = toInt16 (e.count + 1) ∧
      (e.encoderInterrupt a b).diff = toInt16 (e.diff + 1) ∧
      (-32768 ≤ e.count → e.count < 32767 → (e.encoderInterrupt a b).count = e.count + 1) ∧
      (-32768 ≤ e.diff → e.diff < 32767 → (e.encoderInterrupt a b).diff = e.diff + 1) ∧
      ((e.encoderInterrupt a b).isMoved false).1 = true) ∧
    ((e.encoderInterrupt a b).lastEncoded = 0b10000111 →
      (e.encoderInterrupt a b).count = toInt16 (e.count - 1) ∧
      (e.encoderInterrupt a b).diff = toInt16 (e.diff - 1) ∧
      (-32768 < e.count → e.count ≤ 32767 → (e.encoderInterrupt a b).count = e.count - 1) ∧
      (-32768 < e.diff → e.diff ≤ 32767 → (e.encoderInterrupt a b).diff = e.diff - 1) ∧
      ((e.encoderInterrupt a b).isMoved false).1 = true) ∧
    ((e.encoderInterrupt a b).lastEncoded ≠ 0b01001011 →
      (e.encoderInterrupt a b).lastEncoded ≠ 0b10000111 →
      (e.encoderInterrupt a b).count = e.count ∧
      (e.encoderInterrupt a b).diff = e.diff ∧
      (e.encoderInterrupt a b).statusRegister = e.statusRegister ∧
      ((e.encoderInterrupt a b).isMoved false).1 = (e.isMoved false).1) := by
  obtain ⟨hcw, hccw, hno⟩ := encoderInterrupt_cases e a b
  refine ⟨encoderInterrupt_lastEncoded e a b ha hb, ?_, ?_, ?_⟩
  · intro h
    have hs := hcw h
    refine ⟨by rw [hs], by rw [hs], ?_, ?_, ?_⟩
    · intro h1 h2; rw [hs]; exact toInt16_succ _ h1 h2
    · intro h1 h2; rw [hs]; exact toInt16_succ _ h1 h2
    · rw [isMoved_fst, hs]; simp only; rw [testBit_setBit]; simp
  · intro h
    have hs := hccw h
    refine ⟨by rw [hs], by rw [hs], ?_, ?_, ?_⟩
    · intro h1 h2; rw [hs]; exact toInt16_pred _ h1 h2
    · intro h1 h2; rw [hs]; exact toInt16_pred _ h1 h2
    · rw [isMoved_fst, hs]; simp only; rw [testBit_setBit]; simp
  · intro h1 h2
    have hs := hno h1 h2
    refine ⟨by rw [hs], by rw [hs], by rw [hs], ?_⟩
    rw [isMoved_fst, isMoved_fst, hs]

/-- Witness for C1: from the setup state with history `0b010010`, the reading
`a = 1`, `b = 1` completes the clockwise pattern. -/
theorem C1_encoderInterrupt_step_witness :
    (1 : Nat) ≤ 1 ∧ (1 : Nat) ≤ 1 ∧
    ({ setupState with lastEncoded := 0b010010 }.encoderInterrupt 1 1).lastEncoded = 0b01001011 ∧
    ({ setupState with lastEncoded := 0b010010 }.encoderInterrupt 1 1).count = 1 ∧
    ({ setupState with lastEncoded := 0b010010 }.encoderInterrupt 1 1).diff = 1 ∧
    (({ setupState with lastEncoded := 0b010010 }.encoderInterrupt 1 1).isMoved false).1 = true :=
  have h := C1_encoderInterrupt_step { setupState with lastEncoded := 0b010010 } 1 1
    (by decide) (by decide)
  ⟨by decide, by decide, h.1, (h.2.1 (by decide)).2.2.1 (by decide) (by decide),
    (h.2.1 (by decide)).2.2.2.1 (by decide) (by decide), (h.2.1 (by decide)).2.2.2.2⟩

/-- With a two-bit symbol `c`, `(x << 2) | c` is `4 * x + c`. -/
theorem shl2_or (x c : Nat) (hc : c < 4) : (x <<< 2) ||| c = 4 * x + c := by
  rw [Nat.shiftLeft_eq, Nat.mul_comm]
  exact (Nat.mul_add_lt_is_or (by simpa using hc) x).symm

/-- The history stored by `encoderInterrupt`, arithmetically. -/
theorem encoderInterrupt_lastEncoded_arith (e : Encoder) (a b : Nat) (ha : a ≤ 1) (hb : b ≤ 1) :
    (e.encoderInterrupt a b).lastEncoded = (4 * e.lastEncoded + (2 * a + b)) % 256 := by
  rw [encoderInterrupt_lastEncoded e a b ha hb]
  have h1 : (a <<< 1) ||| b = 2 * a + b := by
    interval_cases a <;> interval_cases b <;> rfl
  rw [h1, shl2_or _ _ (by omega)]

/-- A reading other than `a = 1, b = 1` never completes a pattern: the step
only shifts the history. -/
theorem encoderInterrupt_of_ne_three (e : Encoder) (a b : Nat) (ha : a ≤ 1) (hb : b ≤ 1)
    (hne : 2 * a + b ≠ 3) :
    e.encoderInterrupt a b = { e with lastEncoded := (4 * e.lastEncoded + (2 * a + b)) % 256 } := by
  have hl := encoderInterrupt_lastEncoded_arith e a b ha hb
  have h := (encoderInterrupt_cases e a b).2.2 (by rw [hl]; omega) (by rw [hl]; omega)
  rw [h, hl]

/-- The clockwise cycle `01, 00, 10, 11` from any state. -/
theorem feed_clockwise (e : Encoder) :
    e.feed [(0, 1), (0, 0), (1, 0), (1, 1)] =
      { e with
        lastEncoded := 0b01001011
        count := toInt16 (e.count + 1)
        diff := toInt16 (e.diff + 1)
        statusRegister := toByte (e.statusRegister ||| (1 <<< statusEncoderMovedBit)) } := by
  simp only [Encoder.feed, List.foldl_cons, List.foldl_nil]
  rw [encoderInterrupt_of_ne_three e 0 1 (by decide) (by decide) (by decide)]
  rw [encoderInterrupt_of_ne_three _ 0 0 (by decide) (by decide) (by decide)]
  rw [encoderInterrupt_of_ne_three _ 1 0 (by decide) (by decide) (by decide)]
  have h := (encoderInterrupt_cases
    { e with lastEncoded := (4 * ((4 * ((4 * e.lastEncoded + (2 * 0 + 1)) % 256) + (2 * 0 + 0)) % 256)
      + (2 * 1 + 0)) % 256 } 1 1).1
    (by rw [encoderInterrupt_lastEncoded_arith _ 1 1 (by decide) (by decide)]; simp only; omega)
  simpa using h

/-- The counter-clockwise cycle `10, 00, 01, 11` from any state. -/
theorem feed_counterclockwise (e : Encoder) :
    e.feed [(1, 0), (0, 0), (0, 1), (1, 1)] =
      { e with
        lastEncoded := 0b10000111
        count := toInt16 (e.count - 1)
        diff := toInt16 (e.diff - 1)
        statusRegister := toByte (e.statusRegister ||| (1 <<< statusEncoderMovedBit)) } := by
  simp only [Encoder.feed, List.foldl_cons, List.foldl_nil]
  rw [encoderInterrupt_of_ne_three e 1 0 (by decide) (by decide) (by decide)]
  rw [encoderInterrupt_of_ne_three _ 0 0 (by decide) (by decide) (by decide)]
  rw [encoderInterrupt_of_ne_three _ 0 1 (by decide) (by decide) (by decide)]
  have h := (encoderInterrupt_cases
    { e with lastEncoded := (4 * ((4 * ((4 * e.lastEncoded + (2 * 1 + 0)) % 256) + (2 * 0 + 0)) % 256)
      + (2 * 0 + 1)) % 256 } 1 1).2.1
    (by rw [encoderInterrupt_lastEncoded_arith _ 1 1 (by decide) (by decide)]; simp only; omega)
  simpa using h

/-- The first three readings of either cycle leave everything but the history
as it was. -/
theorem feed_three_of_ne_three (e : Encoder) (a₁ b₁ a₂ b₂ a₃ b₃ : Nat)
    (h₁ : a₁ ≤ 1 ∧ b₁ ≤ 1 ∧ 2 * a₁ + b₁ ≠ 3) (h₂ : a₂ ≤ 1 ∧ b₂ ≤ 1 ∧ 2 * a₂ + b₂ ≠ 3)
    (h₃ : a₃ ≤ 1 ∧ b₃ ≤ 1 ∧ 2 * a₃ + b₃ ≠ 3) :
    (∀ s ∈ [e.feed [(a₁, b₁)], e.feed [(a₁, b₁), (a₂, b₂)],
        e.feed [(a₁, b₁), (a₂, b₂), (a₃, b₃)]],
      s.count = e.count ∧ s.diff = e.diff ∧ s.statusRegister = e.statusRegister) := by
  simp only [Encoder.feed, List.foldl_cons, List.foldl_nil]
  rw [encoderInterrupt_of_ne_three e a₁ b₁ h₁.1 h₁.2.1 h₁.2.2]
  rw [encoderInterrupt_of_ne_three _ a₂ b₂ h₂.1 h₂.2.1 h₂.2.2]
  rw [encoderInterrupt_of_ne_three _ a₃ b₃ h₃.1 h₃.2.1 h₃.2.2]
  simp

/-- C2: the rotation scenario.  From every state `e`, the readings
`01, 00, 10, 11` leave `count`, `diff` and the status register alone on the
first three readings and on the fourth raise `count` and `diff` by one (as
`int16_t` values: the plain successor unless the old value is `32767`) and set
the moved flag; the readings `10, 00, 01, 11` lower both by one in the same
way.  From the state produced by `encoderSetup` the clockwise cycle gives
`count = 1`, `diff = 1` and the moved flag, and the counter-clockwise cycle
after it gives `count = 0`, `diff = 0` with the moved flag still set. -/
theorem C2_rotation_scenario (e : Encoder) (a b btn now : Nat) :
    (∀ s ∈ [e.feed [(0, 1)], e.feed [(0, 1), (0, 0)], e.feed [(0, 1), (0, 0), (1, 0)]],
      s.count = e.count ∧ s.diff = e.diff ∧ s.statusRegister = e.statusRegister) ∧
    ((e.feed [(0, 1), (0, 0), (1, 0), (1, 1)]).count = toInt16 (e.count + 1) ∧
      (e.feed [(0, 1), (0, 0), (1, 0), (1, 1)]).diff = toInt16 (e.diff + 1) ∧
      (-32768 ≤ e.count → e.count < 32767 →
        (e.feed [(0, 1), (0, 0), (1, 0), (1, 1)]).count = e.count + 1) ∧
      (-32768 ≤ e.diff → e.diff < 32767 →
        (e.feed [(0, 1), (0, 0), (1, 0), (1, 1)]).diff = e.diff + 1) ∧
      ((e.feed [(0, 1), (0, 0), (1, 0), (1, 1)]).isMoved false).1 = true) ∧
    (∀ s ∈ [e.feed [(1, 0)], e.feed [(1, 0), (0, 0)], e.feed [(1, 0), (0, 0), (0, 1)]],
      s.count = e.count ∧ s.diff = e.diff ∧ s.statusRegister = e.statusRegister) ∧
    ((e.feed [(1, 0), (0, 0), (0, 1), (1, 1)]).count = toInt16 (e.count - 1) ∧
      (e.feed [(1, 0), (0, 0), (0, 1), (1, 1)]).diff = toInt16 (e.diff - 1) ∧
      (-32768 < e.count → e.count ≤ 32767 →
        (e.feed [(1, 0), (0, 0), (0, 1), (1, 1)]).count = e.count - 1) ∧
      (-32768 < e.diff → e.diff ≤ 32767 →
        (e.feed [(1, 0), (0, 0), (0, 1), (1, 1)]).diff = e.diff - 1) ∧
      ((e.feed [(1, 0), (0, 0), (0, 1), (1, 1)]).isMoved false).1 = true) ∧
    ((encoderSetup a b btn now).1.count = 0 ∧ (encoderSetup a b btn now).1.diff = 0 ∧
      (encoderSetup a b btn now).1.lastEncoded = 0 ∧
      (encoderSetup a b btn now).1.statusRegister = 0) ∧
    (((encoderSetup a b btn now).1.feed [(0, 1), (0, 0), (1, 0), (1, 1)]).count = 1 ∧
      ((encoderSetup a b btn now).1.feed [(0, 1), (0, 0), (1, 0), (1, 1)]).diff = 1 ∧
      (((encoderSetup a b btn now).1.feed [(0, 1), (0, 0), (1, 0), (1, 1)]).isMoved false).1
        = true) ∧
    ((((encoderSetup a b btn now).1.feed [(0, 1), (0, 0), (1, 0), (1, 1)]).feed
        [(1, 0), (0, 0), (0, 1), (1, 1)]).count = 0 ∧
      (((encoderSetup a b btn now).1.feed [(0, 1), (0, 0), (1, 0), (1, 1)]).feed
        [(1, 0), (0, 0), (0, 1), (1, 1)]).diff = 0 ∧
      ((((encoderSetup a b btn now).1.feed [(0, 1), (0, 0), (1, 0), (1, 1)]).feed
        [(1, 0), (0, 0), (0, 1), (1, 1)]).isMoved false).1 = true) := by
  have hset : (encoderSetup a b btn now).1.count = 0 ∧ (encoderSetup a b btn now).1.diff = 0 ∧
      (encoderSetup a b btn now).1.lastEncoded = 0 ∧
      (encoderSetup a b btn now).1.statusRegister = 0 := by
    unfold encoderSetup
    simp only
    split_ifs <;> exact ⟨rfl, rfl, rfl, rfl⟩
  have hbit : ∀ x : Nat, (toByte (x ||| (1 <<< statusEncoderMovedBit))).testBit
      statusEncoderMovedBit = true := by
    intro x; rw [testBit_setBit]; simp
  refine ⟨?_, ?_, ?_, ?_, hset, ?_, ?_⟩
  · exact feed_three_of_ne_three e 0 1 0 0 1 0 (by decide) (by decide) (by decide)
  · rw [isMoved_fst, feed_clockwise]
    exact ⟨rfl, rfl, fun h1 h2 => toInt16_succ _ h1 h2, fun h1 h2 => toInt16_succ _ h1 h2,
      hbit _⟩
  · exact feed_three_of_ne_three e 1 0 0 0 0 1 (by decide) (by decide) (by decide)
  · rw [isMoved_fst, feed_counterclockwise]
    exact ⟨rfl, rfl, fun h1 h2 => toInt16_pred _ h1 h2, fun h1 h2 => toInt16_pred _ h1 h2,
      hbit _⟩
  · rw [isMoved_fst, feed_clockwise]
    refine ⟨?_, ?_, hbit _⟩
    · simp only [hset.1]; rfl
    · simp only [hset.2.1]; rfl
  · rw [isMoved_fst, feed_counterclockwise, feed_clockwise]
    refine ⟨?_, ?_, hbit _⟩
    · simp only [hset.1]; rfl
    · simp only [hset.2.1]; rfl

/-- Witness for C2: the clockwise cycle from the setup state with `count = 5`
gives `count = 6`. -/
theorem C2_rotation_scenario_witness :
    ({ setupState with count := 5 }.feed [(0, 1), (0, 0), (1, 0), (1, 1)]).count = 5 + 1 :=
  (C2_rotation_scenario { setupState with count := 5 } 2 3 4 0).2.1.2.2.1
    (by decide) (by decide)

/-! ## The button debouncer -/

theorem toULong_lt (x : Nat) : toULong x < 4294967296 := by
  unfold toULong; omega

theorem toULong_of_lt (x : Nat) (h : x < 4294967296) : toULong x = x := by
  unfold toULong; omega

theorem ulongSub_lt (x y : Nat) : ulongSub x y < 4294967296 := by
  unfold ulongSub; omega

theorem ulongSub_toULong_right (x y : Nat) : ulongSub x (toULong y) = ulongSub x y := by
  unfold ulongSub toULong; omega

theorem ulongSub_toULong_left (x y : Nat) : ulongSub (toULong x) y = ulongSub x y := by
  unfold ulongSub toULong; omega

/-- The debounce test passes exactly when the modular difference lies in
`[10000, 2^31)`: the cast to `long` turns a difference of `2^31` or more into a
negative number. -/
theorem debouncePassed_iff (e : Encoder) (now : Nat) :
    e.debouncePassed now ↔
      10000 ≤ ulongSub now e.debounceMicros ∧ ulongSub now e.debounceMicros < 2147483648 := by
  have h := ulongSub_lt now e.debounceMicros
  unfold Encoder.debouncePassed toLong ENCODER_DEBOUNCE_MICROS
  rw [toULong_of_lt _ h]
  split_ifs with h1 <;> constructor <;> intro h2 <;> omega

/-- A button edge that fails the debounce test changes nothing. -/
theorem buttonInterrupt_of_not_passed (e : Encoder) (now1 now2 : Nat)
    (h : ¬ e.debouncePassed now1) : e.buttonInterrupt now1 now2 = e := by
  unfold Encoder.buttonInterrupt
  rw [if_neg h]

/-- An accepted edge in the released state (`buttonState` not `LOW`). -/
theorem buttonInterrupt_press (e : Encoder) (now1 now2 : Nat)
    (h : e.debouncePassed now1) (hs : e.buttonState ≠ LOW) :
    e.buttonInterrupt now1 now2 =
      { e with
        debounceMicros := toULong now2
        buttonState := LOW
        statusRegister := toByte (e.statusRegister ||| (1 <<< statusButtonPressedBit)) } := by
  unfold Encoder.buttonInterrupt
  rw [if_pos h, if_neg hs]

/-- An accepted edge in the pressed state (`buttonState = LOW`). -/
theorem buttonInterrupt_release (e : Encoder) (now1 now2 : Nat)
    (h : e.debouncePassed now1) (hs : e.buttonState = LOW) :
    e.buttonInterrupt now1 now2 =
      { e with
        debounceMicros := toULong now2
        buttonState := HIGH
        statusRegister :=
          if ulongSub now2 e.buttonLastClick ≤ ENCODER_DOUBLECLICKTIME then
            toByte (toByte (e.statusRegister ||| (1 <<< statusButtonClickedBit))
              ||| (1 <<< statusButtonDoubleClickedBit))
          else toByte (e.statusRegister ||| (1 <<< statusButtonClickedBit))
        buttonLastClick := toULong now2 } := by
  unfold Encoder.buttonInterrupt
  rw [if_pos h, if_pos hs]
  simp only [ulongSub_toULong_left]

/-- C3: debounce rejection.  When the time elapsed since `debounceMicros`
(the difference modulo `2^32`) is below 10,000 microseconds, `buttonInterrupt`
returns the state it was given: every member is as before.  Consequently, when
a button edge is accepted (and so toggles `buttonState`) and a second edge
comes less than 10,000 microseconds after it, the second edge changes
nothing. -/
theorem C3_debounce_rejection (e : Encoder) (now1 now2 now3 now4 : Nat) :
    (ulongSub now1 e.debounceMicros < 10000 → e.buttonInterrupt now1 now2 = e) ∧
    (e.debouncePassed now1 → ulongSub now3 now2 < 10000 →
      (e.buttonInterrupt now1 now2).buttonState ≠ e.buttonState ∧
      (e.buttonInterrupt now1 now2).buttonInterrupt now3 now4 = e.buttonInterrupt now1 now2) := by
  have hrej : ∀ (s : Encoder) (t t' : Nat), ulongSub t s.debounceMicros < 10000 →
      s.buttonInterrupt t t' = s := by
    intro s t t' h
    apply buttonInterrupt_of_not_passed
    rw [debouncePassed_iff]
    omega
  refine ⟨hrej e now1 now2, ?_⟩
  intro hp hgap
  by_cases hs : e.buttonState = LOW
  · constructor
    · rw [buttonInterrupt_release e now1 now2 hp hs, hs]
      show HIGH ≠ LOW
      decide
    · apply hrej
      rw [buttonInterrupt_release e now1 now2 hp hs]
      simpa only [ulongSub_toULong_right] using hgap
  · constructor
    · rw [buttonInterrupt_press e now1 now2 hp hs]; exact fun h => hs h.symm
    · apply hrej
      rw [buttonInterrupt_press e now1 now2 hp hs]
      simpa only [ulongSub_toULong_right] using hgap

/-- Witness for C3: after setup at time `0`, an edge at 9,999 microseconds is
discarded; an edge at 10,000 microseconds is accepted and one 9,999
microseconds later is discarded. -/
theorem C3_debounce_rejection_witness :
    setupState.buttonInterrupt 9999 9999 = setupState ∧
    (setupState.buttonInterrupt 10000 10000).buttonState ≠ setupState.buttonState ∧
    (setupState.buttonInterrupt 10000 10000).buttonInterrupt 19999 19999
      = setupState.buttonInterrupt 10000 10000 :=
  ⟨(C3_debounce_rejection setupState 9999 9999 0 0).1 (by decide),
    (C3_debounce_rejection setupState 10000 10000 19999 19999).2 (by decide) (by decide)⟩

/-- An edge whose distance from `debounceMicros` is `2^31` microseconds or more
is discarded. -/
theorem buttonInterrupt_of_long_gap (e : Encoder) (now1 now2 : Nat)
    (h : 2147483648 ≤ ulongSub now1 e.debounceMicros) : e.buttonInterrupt now1 now2 = e := by
  apply buttonInterrupt_of_not_passed
  rw [debouncePassed_iff]
  omega

/-- C4 (the code at the failing input): in the state set up at time `0`
(`debounceMicros = 0`, button released) a button edge at `now = 2^31` has
modular difference `2^31 >= 10000` from `debounceMicros`, yet the debounce
test fails and `buttonInterrupt` leaves the state untouched: `debounceMicros`
is not updated and `buttonState` does not toggle. -/
theorem C4_edge_at_two_pow_31_discarded :
    setupState.debounceMicros = 0 ∧ setupState.buttonState = HIGH ∧
    ulongSub 2147483648 setupState.debounceMicros = 2147483648 ∧
    (10000 : Nat) ≤ ulongSub 2147483648 setupState.debounceMicros ∧
    ¬ setupState.debouncePassed 2147483648 ∧
    setupState.buttonInterrupt 2147483648 2147483648 = setupState ∧
    (setupState.buttonInterrupt 2147483648 2147483648).debounceMicros ≠ 2147483648 ∧
    (setupState.buttonInterrupt 2147483648 2147483648).buttonState = setupState.buttonState := by
  decide

/-- Status bits after an accepted release: the clicked bit is set, the
double-clicked bit is set when the gap is within the window and kept
otherwise, and the other bits of the byte are kept. -/
theorem release_status_bits (x gap : Nat) :
    let x' := if gap ≤ ENCODER_DOUBLECLICKTIME then
        toByte (toByte (x ||| (1 <<< statusButtonClickedBit))
          ||| (1 <<< statusButtonDoubleClickedBit))
      else toByte (x ||| (1 <<< statusButtonClickedBit))
    x'.testBit statusButtonClickedBit = true ∧
    (gap ≤ 500000 → x'.testBit statusButtonDoubleClickedBit = true) ∧
    (500000 < gap →
      x'.testBit statusButtonDoubleClickedBit = x.testBit statusButtonDoubleClickedBit) ∧
    x'.testBit statusButtonPressedBit = x.testBit statusButtonPressedBit ∧
    x'.testBit statusEncoderMovedBit = x.testBit statusEncoderMovedBit := by
  intro x'
  by_cases hg : gap ≤ ENCODER_DOUBLECLICKTIME
  · have hx : x' = toByte (toByte (x ||| (1 <<< statusButtonClickedBit))
        ||| (1 <<< statusButtonDoubleClickedBit)) := if_pos hg
    rw [hx]
    refine ⟨?_, ?_, ?_, ?_, ?_⟩
    · rw [testBit_setBit_of_ne _ _ _ (by decide) (by decide)]
      exact testBit_setBit_self _ _ (by decide)
    · intro _; exact testBit_setBit_self _ _ (by decide)
    · intro h; exact absurd hg (by simp only [ENCODER_DOUBLECLICKTIME]; omega)
    · rw [testBit_setBit_of_ne _ _ _ (by decide) (by decide)]
      exact testBit_setBit_of_ne _ _ _ (by decide) (by decide)
    · rw [testBit_setBit_of_ne _ _ _ (by decide) (by decide)]
      exact testBit_setBit_of_ne _ _ _ (by decide) (by decide)
  · have hx : x' = toByte (x ||| (1 <<< statusButtonClickedBit)) := if_neg hg
    rw [hx]
    refine ⟨testBit_setBit_self _ _ (by decide), ?_, ?_, ?_, ?_⟩
    · intro h; exact absurd h hg
    · intro _; exact testBit_setBit_of_ne _ _ _ (by decide) (by decide)
    · exact testBit_setBit_of_ne _ _ _ (by decide) (by decide)
    · exact testBit_setBit_of_ne _ _ _ (by decide) (by decide)

/-- C5: accepted release edge.  In a state with `buttonState = LOW` (pressed)
whose debounce test passes, `buttonInterrupt` leaves `buttonState = HIGH`
(released), the clicked flag set and `buttonLastClick = debounceMicros = now`
(the stored reading `now2`); the double-clicked flag is set when
`(now - old buttonLastClick) mod 2^32 <= 500000` and is as it was when the gap
is larger; the pressed and moved flags, `count`, `diff` and the edge history
are unchanged.  Hence, after such a release at `now2`, with the clicked and
double-clicked flags cleared, an accepted press and an accepted release stored
at `now6` leave the clicked flag set and the double-clicked flag set exactly
when `(now6 - now2) mod 2^32 <= 500000`. -/
theorem C5_accepted_release (e : Encoder) (now1 now2 now3 now4 now5 now6 : Nat)
    (hlow : e.buttonState = LOW) (hpass : e.debouncePassed now1) (hnow : now2 < 4294967296) :
    ((e.buttonInterrupt now1 now2).buttonState = HIGH ∧
      ((e.buttonInterrupt now1 now2).isClicked false).1 = true ∧
      (e.buttonInterrupt now1 now2).buttonLastClick = now2 ∧
      (e.buttonInterrupt now1 now2).debounceMicros = now2 ∧
      (ulongSub now2 e.buttonLastClick ≤ 500000 → ((e.buttonInterrupt now1 now2).isDoubleClicked
          false).1 = true) ∧
      (500000 < ulongSub now2 e.buttonLastClick → ((e.buttonInterrupt now1 now2).isDoubleClicked
          false).1 = (e.isDoubleClicked false).1) ∧
      ((e.buttonInterrupt now1 now2).isPressed false).1 = (e.isPressed false).1 ∧
      ((e.buttonInterrupt now1 now2).isMoved false).1 = (e.isMoved false).1 ∧
      (e.buttonInterrupt now1 now2).count = e.count ∧
      (e.buttonInterrupt now1 now2).diff = e.diff ∧
      (e.buttonInterrupt now1 now2).lastEncoded = e.lastEncoded) ∧
    ((((e.buttonInterrupt now1 now2).isClicked true).2.isDoubleClicked true).2.debouncePassed
        now3 →
      ((((e.buttonInterrupt now1 now2).isClicked true).2.isDoubleClicked true).2.buttonInterrupt
          now3 now4).debouncePassed now5 →
      ((((e.buttonInterrupt now1 now2).isClicked true).2.isDoubleClicked true).2.buttonInterrupt
          now3 now4).buttonState = LOW ∧
      (((((e.buttonInterrupt now1 now2).isClicked true).2.isDoubleClicked
          true).2.buttonInterrupt now3 now4).buttonInterrupt now5 now6).buttonState = HIGH ∧
      ((((((e.buttonInterrupt now1 now2).isClicked true).2.isDoubleClicked
          true).2.buttonInterrupt now3 now4).buttonInterrupt now5 now6).isClicked false).1 = true ∧
      (ulongSub now6 now2 ≤ 500000 → ((((((e.buttonInterrupt now1 now2).isClicked
          true).2.isDoubleClicked true).2.buttonInterrupt now3 now4).buttonInterrupt now5
          now6).isDoubleClicked false).1 = true) ∧
      (500000 < ulongSub now6 now2 → ((((((e.buttonInterrupt now1 now2).isClicked
          true).2.isDoubleClicked true).2.buttonInterrupt now3 now4).buttonInterrupt now5
          now6).isDoubleClicked false).1 = false)) := by
  set r := e.buttonInterrupt now1 now2 with hrdef
  set c := ((r.isClicked true).2.isDoubleClicked true).2 with hcdef
  set p := c.buttonInterrupt now3 now4 with hpdef
  set r' := p.buttonInterrupt now5 now6 with hr'def
  have hr : r = _ := buttonInterrupt_release e now1 now2 hpass hlow
  have hbits := release_status_bits e.statusRegister (ulongSub now2 e.buttonLastClick)
  have hrs : r.statusRegister = _ := congrArg Encoder.statusRegister hr
  simp only at hrs hbits
  constructor
  · simp only [isClicked_fst, isDoubleClicked_fst, isPressed_fst, isMoved_fst, hrs]
    refine ⟨by rw [hr], hbits.1, ?_, ?_, hbits.2.1, hbits.2.2.1, hbits.2.2.2.1, hbits.2.2.2.2,
      by rw [hr], by rw [hr], by rw [hr]⟩
    · rw [hr]; exact toULong_of_lt _ hnow
    · rw [hr]; exact toULong_of_lt _ hnow
  · intro hp3 hp5
    have hc : c = { r with statusRegister := c.statusRegister } := rfl
    have hcD : c.statusRegister.testBit statusButtonDoubleClickedBit = false :=
      testBit_clearBit_self _ _
    have hcs : c.buttonState ≠ LOW := by
      rw [hc, hr]; show HIGH ≠ LOW; decide
    have hpe : p = _ := buttonInterrupt_press c now3 now4 hp3 hcs
    have hps : p.buttonState = LOW := by rw [hpe]
    have hpl : p.buttonLastClick = toULong now2 := by rw [hpe, hc, hr]
    have hpD : p.statusRegister.testBit statusButtonDoubleClickedBit = false := by
      rw [hpe]
      simp only
      rw [testBit_setBit_of_ne _ _ _ (by decide) (by decide)]
      exact hcD
    have hr' : r' = _ := buttonInterrupt_release p now5 now6 hp5 hps
    have hbits' := release_status_bits p.statusRegister (ulongSub now6 p.buttonLastClick)
    have hrs' : r'.statusRegister = _ := congrArg Encoder.statusRegister hr'
    simp only at hrs' hbits'
    rw [hpl, ulongSub_toULong_right] at hbits' hrs'
    simp only [isClicked_fst, isDoubleClicked_fst, hrs']
    refine ⟨hps, by rw [hr'], hbits'.1, hbits'.2.1, ?_⟩
    intro h
    rw [hbits'.2.2.1 h]
    exact hpD

/-- Witness for C5: from `pressedState` (last click stamp `0`) a release at
1,000,000 microseconds keeps the double-clicked flag as it was; after clearing
the flags and a press at 1,200,000, a release at 1,500,000 (gap exactly
500,000) sets the double-clicked flag, and a release at 1,500,001 (gap
500,001) does not. -/
theorem C5_accepted_release_witness :
    (pressedState.buttonInterrupt 1000000 1000000).buttonLastClick = 1000000 ∧
    ((pressedState.buttonInterrupt 1000000 1000000).isDoubleClicked false).1
      = (pressedState.isDoubleClicked false).1 ∧
    ((((((pressedState.buttonInterrupt 1000000 1000000).isClicked true).2.isDoubleClicked
      true).2.buttonInterrupt 1200000 1200000).buttonInterrupt 1500000 1500000).isDoubleClicked
      false).1 = true ∧
    ((((((pressedState.buttonInterrupt 1000000 1000000).isClicked true).2.isDoubleClicked
      true).2.buttonInterrupt 1200000 1200000).buttonInterrupt 1500001 1500001).isDoubleClicked
      false).1 = false :=
  have h := C5_accepted_release pressedState 1000000 1000000 1200000 1200000 1500000 1500000
    (by decide) (by decide) (by decide)
  have h' := C5_accepted_release pressedState 1000000 1000000 1200000 1200000 1500001 1500001
    (by decide) (by decide) (by decide)
  ⟨h.1.2.2.1, h.1.2.2.2.2.2.1 (by decide),
    (h.2 (by decide) (by decide)).2.2.2.1 (by decide),
    (h'.2 (by decide) (by decide)).2.2.2.2 (by decide)⟩

/-- C6: accepted press edge.  In a state with `buttonState = HIGH` (released)
whose debounce test passes, `buttonInterrupt` leaves `buttonState = LOW`
(pressed), the pressed flag set and `debounceMicros = now` (the stored reading
`now2`), while the clicked, double-clicked and moved flags, `buttonLastClick`,
`count`, `diff` and the edge history are as before. -/
theorem C6_accepted_press (e : Encoder) (now1 now2 : Nat)
    (hhigh : e.buttonState = HIGH) (hpass : e.debouncePassed now1) (hnow : now2 < 4294967296) :
    (e.buttonInterrupt now1 now2).buttonState = LOW ∧
    ((e.buttonInterrupt now1 now2).isPressed false).1 = true ∧
    (e.buttonInterrupt now1 now2).debounceMicros = now2 ∧
    ((e.buttonInterrupt now1 now2).isClicked false).1 = (e.isClicked false).1 ∧
    ((e.buttonInterrupt now1 now2).isDoubleClicked false).1 = (e.isDoubleClicked false).1 ∧
    ((e.buttonInterrupt now1 now2).isMoved false).1 = (e.isMoved false).1 ∧
    (e.buttonInterrupt now1 now2).buttonLastClick = e.buttonLastClick ∧
    (e.buttonInterrupt now1 now2).count = e.count ∧
    (e.buttonInterrupt now1 now2).diff = e.diff ∧
    (e.buttonInterrupt now1 now2).lastEncoded = e.lastEncoded := by
  have hs : e.buttonState ≠ LOW := by rw [hhigh]; decide
  rw [buttonInterrupt_press e now1 now2 hpass hs]
  simp only [isClicked_fst, isDoubleClicked_fst, isPressed_fst, isMoved_fst]
  exact ⟨trivial, testBit_setBit_self _ _ (by decide), toULong_of_lt _ hnow,
    testBit_setBit_of_ne _ _ _ (by decide) (by decide),
    testBit_setBit_of_ne _ _ _ (by decide) (by decide),
    testBit_setBit_of_ne _ _ _ (by decide) (by decide), trivial, trivial, trivial, trivial⟩

/-- Witness for C6: the edge at 10,000 microseconds after setup at time `0`. -/
theorem C6_accepted_press_witness :
    setupState.buttonState = HIGH ∧ setupState.debouncePassed 10000 ∧
    (setupState.buttonInterrupt 10000 10000).buttonState = LOW ∧
    ((setupState.buttonInterrupt 10000 10000).isPressed false).1 = true ∧
    (setupState.buttonInterrupt 10000 10000).debounceMicros = 10000 ∧
    ((setupState.buttonInterrupt 10000 10000).isClicked false).1 = (setupState.isClicked false).1 :=
  have h := C6_accepted_press setupState 10000 10000 (by decide) (by decide) (by decide)
  ⟨by decide, by decide, h.1, h.2.1, h.2.2.1, h.2.2.2.1⟩

/-- C7 (the code at the failing input): after setup at time `0` nothing is
flagged; the first button edge, at 10,000 microseconds, is accepted as a press
and the second, at 20,000 microseconds, is accepted as the first release since
setup.  That single press-and-release sets the double-clicked flag, because
`encoderSetup` stores the setup time in `buttonLastClick` and the release lies
within 500,000 microseconds of it. -/
theorem C7_single_click_sets_doubleClicked :
    setupState.buttonLastClick = 0 ∧
    (setupState.isDoubleClicked false).1 = false ∧
    (setupState.isClicked false).1 = false ∧
    (setupState.buttonInterrupt 10000 10000).buttonState = LOW ∧
    ((setupState.buttonInterrupt 10000 10000).isClicked false).1 = false ∧
    ((setupState.buttonInterrupt 10000 10000).isDoubleClicked false).1 = false ∧
    ((setupState.buttonInterrupt 10000 10000).buttonInterrupt 20000 20000).buttonState = HIGH ∧
    (((setupState.buttonInterrupt 10000 10000).buttonInterrupt 20000 20000).isClicked false).1
      = true ∧
    (((setupState.buttonInterrupt 10000 10000).buttonInterrupt 20000 20000).isDoubleClicked
      false).1 = true := by
  decide

/-! ## The accessors -/

theorem Flag.bit_lt (X : Flag) : X.bit < 8 := by
  cases X <;> decide

theorem Flag.bit_injective (X Y : Flag) (h : X.bit = Y.bit) : X = Y := by
  cases X <;> cases Y <;> first | rfl | exact absurd h (by decide)

/-- The value returned by a flag accessor is the flag's bit. -/
theorem isFlag_fst (e : Encoder) (X : Flag) (c : Bool) :
    (e.isFlag X c).1 = e.statusRegister.testBit X.bit := by
  cases X
  · exact isMoved_fst e c
  · exact isPressed_fst e c
  · exact isClicked_fst e c
  · exact isDoubleClicked_fst e c

/-- The state left by a flag accessor. -/
theorem isFlag_snd (e : Encoder) (X : Flag) (c : Bool) :
    (e.isFlag X c).2 =
      if c then { e with statusRegister := toByte (e.statusRegister &&& intNot (1 <<< X.bit)) }
      else e := by
  cases X <;> cases c <;> rfl

/-- C8: flag accessors.  For each flag `X` of moved, pressed, clicked and
double-clicked and every state: `isX(clear)` returns whether bit `X` of
`statusRegister` is set before the call; `isX(false)` returns the state it was
given, so after any number `n` of peeks the state, and with it the value read,
is the same; `isX(true)` clears bit `X`, so the next `isX` returns false, and
changes nothing else: every other flag reads as before, every other bit of the
status byte is as before, and all other members are as before. -/
theorem C8_flag_accessors (e : Encoder) (X : Flag) (c : Bool) (n : Nat) :
    (e.isFlag X c).1 = e.statusRegister.testBit X.bit ∧
    (e.isFlag X false).2 = e ∧
    (fun s => (s.isFlag X false).2)^[n] e = e ∧
    (((fun s => (s.isFlag X false).2)^[n] e).isFlag X false).1 = (e.isFlag X false).1 ∧
    ((e.isFlag X true).2.isFlag X c).1 = false ∧
    (∀ Y : Flag, Y ≠ X → ((e.isFlag X true).2.isFlag Y c).1 = (e.isFlag Y c).1) ∧
    (∀ i : Nat, i < 8 → i ≠ X.bit →
      (e.isFlag X true).2.statusRegister.testBit i = e.statusRegister.testBit i) ∧
    (e.isFlag X true).2 = { e with statusRegister := (e.isFlag X true).2.statusRegister } := by
  have hpeek : (e.isFlag X false).2 = e := by rw [isFlag_snd]; rfl
  have hiter : (fun s => (s.isFlag X false).2)^[n] e = e :=
    Function.iterate_fixed hpeek n
  have hclr : (e.isFlag X true).2 =
      { e with statusRegister := toByte (e.statusRegister &&& intNot (1 <<< X.bit)) } := by
    rw [isFlag_snd]; rfl
  refine ⟨isFlag_fst e X c, hpeek, hiter, by rw [hiter], ?_, ?_, ?_, ?_⟩
  · rw [isFlag_fst, hclr]
    exact testBit_clearBit_self _ _
  · intro Y hY
    rw [isFlag_fst, isFlag_fst, hclr]
    exact testBit_clearBit_of_ne _ _ _ (Flag.bit_lt Y) (fun h => hY (Flag.bit_injective Y X h.symm))
  · intro i hi hne
    rw [hclr]
    exact testBit_clearBit_of_ne _ _ _ hi (fun h => hne h.symm)
  · rw [hclr]

/-- Witness for C8: with the status byte `0b10111` (all four flags set),
`isClicked(true)` returns true, clears the clicked flag and keeps the moved
flag. -/
theorem C8_flag_accessors_witness :
    ({ setupState with statusRegister := 0b10111 }.isFlag Flag.Clicked true).1 = true ∧
    (({ setupState with statusRegister := 0b10111 }.isFlag Flag.Clicked true).2.isFlag
      Flag.Clicked true).1 = false ∧
    (({ setupState with statusRegister := 0b10111 }.isFlag Flag.Clicked true).2.isFlag
      Flag.Moved true).1 = ({ setupState with statusRegister := 0b10111 }.isFlag Flag.Moved true).1 :=
  have h := C8_flag_accessors { setupState with statusRegister := 0b10111 } Flag.Clicked true 3
  ⟨h.1.trans (by decide), h.2.2.2.2.1, h.2.2.2.2.2.1 Flag.Moved (by decide)⟩

/-- C9: `getDiff`.  `getDiff(true)` returns `diff` and leaves `diff = 0` with
every other member unchanged, so a second `getDiff(true)` right after returns
`0`; `getDiff(false)` returns `diff` and leaves the state unchanged. -/
theorem C9_getDiff (e : Encoder) :
    (e.getDiff true).1 = e.diff ∧
    (e.getDiff true).2 = { e with diff := 0 } ∧
    (e.getDiff true).2.diff = 0 ∧
    ((e.getDiff true).2.statusRegister = e.statusRegister ∧
      (e.getDiff true).2.count = e.count ∧
      (e.getDiff true).2.lastEncoded = e.lastEncoded ∧
      (e.getDiff true).2.buttonState = e.buttonState ∧
      (e.getDiff true).2.buttonLastClick = e.buttonLastClick ∧
      (e.getDiff true).2.debounceMicros = e.debounceMicros) ∧
    ((e.getDiff true).2.getDiff true).1 = 0 ∧
    (e.getDiff false).1 = e.diff ∧
    (e.getDiff false).2 = e :=
  ⟨rfl, rfl, rfl, ⟨rfl, rfl, rfl, rfl, rfl, rfl⟩, rfl, rfl, rfl⟩

/-- C10: `clear`.  Afterwards the moved, pressed, clicked and double-clicked
flags all read false, while `count`, `diff`, `buttonLastClick`,
`debounceMicros`, `buttonState` and the edge history (and the pin numbers) are
as before the call. -/
theorem C10_clear (e : Encoder) (c : Bool) :
    (e.clear.isMoved c).1 = false ∧
    (e.clear.isPressed c).1 = false ∧
    (e.clear.isClicked c).1 = false ∧
    (e.clear.isDoubleClicked c).1 = false ∧
    e.clear.count = e.count ∧
    e.clear.diff = e.diff ∧
    e.clear.buttonLastClick = e.buttonLastClick ∧
    e.clear.debounceMicros = e.debounceMicros ∧
    e.clear.buttonState = e.buttonState ∧
    e.clear.lastEncoded = e.lastEncoded ∧
    e.clear = { e with statusRegister := 0 } := by
  refine ⟨?_, ?_, ?_, ?_, rfl, rfl, rfl, rfl, rfl, rfl, rfl⟩
  · rw [isMoved_fst]; exact Nat.zero_testBit _
  · rw [isPressed_fst]; exact Nat.zero_testBit _
  · rw [isClicked_fst]; exact Nat.zero_testBit _
  · rw [isDoubleClicked_fst]; exact Nat.zero_testBit _

/-! ## Frame properties and invariants -/

/-- Setting a bit never clears a bit of the byte. -/
theorem testBit_setBit_of_true (x k i : Nat) (hi : i < 8) (h : x.testBit i = true) :
    (toByte (x ||| (1 <<< k))).testBit i = true := by
  rw [testBit_setBit]; simp [hi, h]

/-- The status register after `encoderInterrupt`: unchanged, or with the moved
bit set. -/
theorem encoderInterrupt_statusRegister (e : Encoder) (a b : Nat) :
    (e.encoderInterrupt a b).statusRegister = e.statusRegister ∨
    (e.encoderInterrupt a b).statusRegister
      = toByte (e.statusRegister ||| (1 <<< statusEncoderMovedBit)) := by
  unfold Encoder.encoderInterrupt
  simp only
  split_ifs
  · exact Or.inr rfl
  · exact Or.inr rfl
  · exact Or.inl rfl

/-- The handlers only ever set bits: a bit of the status byte that is set
stays set across `buttonInterrupt`. -/
theorem buttonInterrupt_testBit_of_true (e : Encoder) (now1 now2 i : Nat) (hi : i < 8)
    (h : e.statusRegister.testBit i = true) :
    (e.buttonInterrupt now1 now2).statusRegister.testBit i = true := by
  by_cases hp : e.debouncePassed now1
  · by_cases hs : e.buttonState = LOW
    · rw [buttonInterrupt_release e now1 now2 hp hs]
      simp only
      split_ifs
      · exact testBit_setBit_of_true _ _ _ hi (testBit_setBit_of_true _ _ _ hi h)
      · exact testBit_setBit_of_true _ _ _ hi h
    · rw [buttonInterrupt_press e now1 now2 hp hs]
      exact testBit_setBit_of_true _ _ _ hi h
  · rw [buttonInterrupt_of_not_passed e now1 now2 hp]
    exact h

/-- C11: flags are sticky.  For each flag `X` and every state in which `X` is
set, `X` is still set after any single call other than `isX(true)` and
`clear()`: after `encoderInterrupt` with any pin readings, `buttonInterrupt`
with any time readings, `getCount`, `setCount(v)`, `getDiff(true)`,
`getDiff(false)`, any peek `isY(false)` and `isY(true)` for a flag `Y` other
than `X`. -/
theorem C11_flags_sticky (e : Encoder) (X : Flag) (op : Op)
    (hset : (e.isFlag X false).1 = true)
    (hclear : op ≠ Op.clear) (hread : op ≠ Op.isFlag X true) :
    ((e.exec op).isFlag X false).1 = true := by
  rw [isFlag_fst] at hset ⊢
  cases op with
  | encoderInterrupt a b =>
    show (e.encoderInterrupt a b).statusRegister.testBit X.bit = true
    rcases encoderInterrupt_statusRegister e a b with h | h
    · rw [h]; exact hset
    · rw [h]; exact testBit_setBit_of_true _ _ _ (Flag.bit_lt X) hset
  | buttonInterrupt now1 now2 =>
    exact buttonInterrupt_testBit_of_true e now1 now2 _ (Flag.bit_lt X) hset
  | getCount => exact hset
  | setCount v => exact hset
  | getDiff c => cases c <;> exact hset
  | isFlag Y c =>
    show (e.isFlag Y c).2.statusRegister.testBit X.bit = true
    rw [isFlag_snd]
    cases c with
    | false => exact hset
    | true =>
      have hY : Y ≠ X := fun h => hread (by rw [h])
      simp only [if_true]
      rw [testBit_clearBit_of_ne _ _ _ (Flag.bit_lt X)
        (fun h => hY (Flag.bit_injective Y X h))]
      exact hset
  | clear => exact absurd rfl hclear

/-- Witness for C11: with the clicked flag set, `isMoved(true)` leaves it set. -/
theorem C11_flags_sticky_witness :
    ({ setupState with statusRegister := 0b101 }.isFlag Flag.Clicked false).1 = true ∧
    (({ setupState with statusRegister := 0b101 }.exec (Op.isFlag Flag.Moved true)).isFlag
      Flag.Clicked false).1 = true :=
  ⟨by decide, C11_flags_sticky { setupState with statusRegister := 0b101 } Flag.Clicked
    (Op.isFlag Flag.Moved true) (by decide) (by decide) (by decide)⟩

/-- C12 (counterexample): from the setup state, an accepted press at 10,000
microseconds and an accepted release at 20,000 microseconds leave the button
released (`buttonState = HIGH`) while `isPressed(false)` returns true; and
after an accepted press followed by `isPressed(true)` the button is pressed
(`buttonState = LOW`) while `isPressed(false)` returns false.  In both
reachable states "returns true if and only if `buttonState` is pressed"
fails. -/
theorem C12_isPressed_is_not_the_button_state :
    (setupState.run [Op.buttonInterrupt 10000 10000, Op.buttonInterrupt 20000 20000]).buttonState
      = HIGH ∧
    ((setupState.run [Op.buttonInterrupt 10000 10000, Op.buttonInterrupt 20000 20000]).isPressed
      false).1 = true ∧
    ¬ (((setupState.run [Op.buttonInterrupt 10000 10000,
          Op.buttonInterrupt 20000 20000]).isPressed false).1 = true ↔
      (setupState.run [Op.buttonInterrupt 10000 10000,
          Op.buttonInterrupt 20000 20000]).buttonState = LOW) ∧
    (setupState.run [Op.buttonInterrupt 10000 10000, Op.isFlag Flag.Pressed true]).buttonState
      = LOW ∧
    ((setupState.run [Op.buttonInterrupt 10000 10000, Op.isFlag Flag.Pressed true]).isPressed
      false).1 = false ∧
    ¬ (((setupState.run [Op.buttonInterrupt 10000 10000,
          Op.isFlag Flag.Pressed true]).isPressed false).1 = true ↔
      (setupState.run [Op.buttonInterrupt 10000 10000,
          Op.isFlag Flag.Pressed true]).buttonState = LOW) := by
  decide

/-- The platform calls of `encoderSetup`: the guard `pinButton >= 0` holds for
every argument, so the button pin is always configured and `buttonISR` is
always attached. -/
theorem encoderSetup_calls (a b btn now : Nat) :
    (encoderSetup a b btn now).1.pinButton = (toByte btn : Nat) ∧
    (encoderSetup a b btn now).2 =
      [HwCall.pinMode (toByte a), HwCall.pinMode (toByte b),
        HwCall.attachInterrupt (toByte a) Handler.encoderISR,
        HwCall.attachInterrupt (toByte b) Handler.encoderISR,
        HwCall.pinMode (toByte btn), HwCall.attachInterrupt (toByte btn) Handler.buttonISR] := by
  have h : ((toByte btn : Nat) : Int) ≥ 0 := Int.natCast_nonneg _
  unfold encoderSetup
  simp only
  rw [if_pos h]
  exact ⟨rfl, rfl⟩

/-- C13 (the code on the two-pin constructor): for all pins `a`, `b` the
constructor `Encoder(a, b)` stores `pinButton = 255`, the guard
`pinButton >= 0` holds, and the platform calls end with
`pinMode(255, INPUT_PULLUP)` and `attachInterrupt(255, buttonISR, CHANGE)`:
the same state and calls as `Encoder(a, b, 255)`.  The three-pin constructor
configures its button pin and attaches `buttonISR`, as claimed. -/
theorem C13_two_pin_constructor_registers_button (a b btn now : Nat) :
    (Encoder.new2 a b now).1.pinButton = 255 ∧
    (Encoder.new2 a b now).1.pinButton ≥ 0 ∧
    (Encoder.new2 a b now).2 =
      [HwCall.pinMode (toByte a), HwCall.pinMode (toByte b),
        HwCall.attachInterrupt (toByte a) Handler.encoderISR,
        HwCall.attachInterrupt (toByte b) Handler.encoderISR,
        HwCall.pinMode 255, HwCall.attachInterrupt 255 Handler.buttonISR] ∧
    HwCall.pinMode 255 ∈ (Encoder.new2 a b now).2 ∧
    HwCall.attachInterrupt 255 Handler.buttonISR ∈ (Encoder.new2 a b now).2 ∧
    Encoder.new2 a b now = Encoder.new3 a b 255 now ∧
    (Encoder.new3 a b btn now).2 =
      [HwCall.pinMode (toByte a), HwCall.pinMode (toByte b),
        HwCall.attachInterrupt (toByte a) Handler.encoderISR,
        HwCall.attachInterrupt (toByte b) Handler.encoderISR,
        HwCall.pinMode (toByte btn), HwCall.attachInterrupt (toByte btn) Handler.buttonISR] := by
  have h : Encoder.new2 a b now = encoderSetup a b 255 now := rfl
  have h2 := encoderSetup_calls a b 255 now
  have h3 : Encoder.new3 a b btn now = encoderSetup a b btn now := rfl
  have h255 : ((toByte 255 : Nat) : Int) = 255 := by decide
  rw [h255] at h2
  rw [h, h3, h2.1, h2.2]
  refine ⟨rfl, by decide, rfl, by simp, by simp, rfl, (encoderSetup_calls a b btn now).2⟩

/-- C14: `count` and `diff` wrap as 16-bit two's-complement integers.  After a
recognized clockwise indent the new value lies in `[-32768, 32767]` and is
congruent to the old value plus one modulo `2^16`; from `32767` it is
`-32768`.  After a recognized counter-clockwise indent it lies in the same
range and is congruent to the old value minus one; from `-32768` it is
`32767`.  The step is a total function, so no error can arise. -/
theorem C14_int16_wraparound (e : Encoder) (a b : Nat) :
    ((e.encoderInterrupt a b).lastEncoded = 0b01001011 →
      ((-32768 ≤ (e.encoderInterrupt a b).count ∧ (e.encoderInterrupt a b).count ≤ 32767) ∧
        ((e.encoderInterrupt a b).count - (e.count + 1)) % 65536 = 0 ∧
        (e.count = 32767 → (e.encoderInterrupt a b).count = -32768)) ∧
      ((-32768 ≤ (e.encoderInterrupt a b).diff ∧ (e.encoderInterrupt a b).diff ≤ 32767) ∧
        ((e.encoderInterrupt a b).diff - (e.diff + 1)) % 65536 = 0 ∧
        (e.diff = 32767 → (e.encoderInterrupt a b).diff = -32768))) ∧
    ((e.encoderInterrupt a b).lastEncoded = 0b10000111 →
      ((-32768 ≤ (e.encoderInterrupt a b).count ∧ (e.encoderInterrupt a b).count ≤ 32767) ∧
        ((e.encoderInterrupt a b).count - (e.count - 1)) % 65536 = 0 ∧
        (e.count = -32768 → (e.encoderInterrupt a b).count = 32767)) ∧
      ((-32768 ≤ (e.encoderInterrupt a b).diff ∧ (e.encoderInterrupt a b).diff ≤ 32767) ∧
        ((e.encoderInterrupt a b).diff - (e.diff - 1)) % 65536 = 0 ∧
        (e.diff = -32768 → (e.encoderInterrupt a b).diff = 32767))) := by
  have hw : ∀ x : Int, (-32768 ≤ toInt16 x ∧ toInt16 x ≤ 32767) ∧ (toInt16 x - x) % 65536 = 0 := by
    intro x; unfold toInt16; omega
  have hup : ∀ x : Int, x = 32767 → toInt16 (x + 1) = -32768 := by
    intro x hx; subst hx; decide
  have hdn : ∀ x : Int, x = -32768 → toInt16 (x - 1) = 32767 := by
    intro x hx; subst hx; decide
  obtain ⟨hcw, hccw, _⟩ := encoderInterrupt_cases e a b
  constructor
  · intro h
    rw [hcw h]
    exact ⟨⟨(hw _).1, (hw _).2, hup _⟩, ⟨(hw _).1, (hw _).2, hup _⟩⟩
  · intro h
    rw [hccw h]
    exact ⟨⟨(hw _).1, (hw _).2, hdn _⟩, ⟨(hw _).1, (hw _).2, hdn _⟩⟩

/-- Witness for C14: at `count = 32767`, `diff = -5` a clockwise indent gives
`count = -32768`; at `count = -32768` a counter-clockwise indent gives
`count = 32767`. -/
theorem C14_int16_wraparound_witness :
    ({ setupState with count := 32767, diff := -5, lastEncoded := 0b010010 }.encoderInterrupt
      1 1).count = -32768 ∧
    ({ setupState with count := -32768, lastEncoded := 0b100001 }.encoderInterrupt
      1 1).count = 32767 :=
  ⟨((C14_int16_wraparound
      { setupState with count := 32767, diff := -5, lastEncoded := 0b010010 } 1 1).1
      (by decide)).1.2.2 (by decide),
    ((C14_int16_wraparound
      { setupState with count := -32768, lastEncoded := 0b100001 } 1 1).2
      (by decide)).1.2.2 (by decide)⟩

/-- Members that `encoderInterrupt` never writes. -/
theorem encoderInterrupt_frame (e : Encoder) (a b : Nat) :
    (e.encoderInterrupt a b).buttonState = e.buttonState ∧
    (e.encoderInterrupt a b).buttonLastClick = e.buttonLastClick ∧
    (e.encoderInterrupt a b).debounceMicros = e.debounceMicros ∧
    (e.encoderInterrupt a b).pinA = e.pinA ∧ (e.encoderInterrupt a b).pinB = e.pinB ∧
    (e.encoderInterrupt a b).pinButton = e.pinButton := by
  unfold Encoder.encoderInterrupt
  simp only
  split_ifs <;> exact ⟨rfl, rfl, rfl, rfl, rfl, rfl⟩

/-- Bits of the status byte other than the moved bit are kept by
`encoderInterrupt`. -/
theorem encoderInterrupt_testBit (e : Encoder) (a b i : Nat) (hi : i < 8)
    (hne : statusEncoderMovedBit ≠ i) :
    (e.encoderInterrupt a b).statusRegister.testBit i = e.statusRegister.testBit i := by
  rcases encoderInterrupt_statusRegister e a b with h | h
  · rw [h]
  · rw [h]; exact testBit_setBit_of_ne _ _ _ hi hne

/-- Members that `buttonInterrupt` never writes, and the bits of the status
byte it keeps: all but the pressed, clicked and double-clicked bits. -/
theorem buttonInterrupt_frame (e : Encoder) (now1 now2 : Nat) :
    (e.buttonInterrupt now1 now2).count = e.count ∧
    (e.buttonInterrupt now1 now2).diff = e.diff ∧
    (e.buttonInterrupt now1 now2).lastEncoded = e.lastEncoded ∧
    (e.buttonInterrupt now1 now2).pinA = e.pinA ∧ (e.buttonInterrupt now1 now2).pinB = e.pinB ∧
    (e.buttonInterrupt now1 now2).pinButton = e.pinButton ∧
    (∀ i : Nat, i < 8 → statusButtonPressedBit ≠ i → statusButtonClickedBit ≠ i →
      statusButtonDoubleClickedBit ≠ i →
      (e.buttonInterrupt now1 now2).statusRegister.testBit i = e.statusRegister.testBit i) := by
  by_cases hp : e.debouncePassed now1
  · by_cases hs : e.buttonState = LOW
    · rw [buttonInterrupt_release e now1 now2 hp hs]
      refine ⟨rfl, rfl, rfl, rfl, rfl, rfl, ?_⟩
      intro i hi _ h2 h4
      simp only
      split_ifs
      · rw [testBit_setBit_of_ne _ _ _ hi h4, testBit_setBit_of_ne _ _ _ hi h2]
      · rw [testBit_setBit_of_ne _ _ _ hi h2]
    · rw [buttonInterrupt_press e now1 now2 hp hs]
      refine ⟨rfl, rfl, rfl, rfl, rfl, rfl, ?_⟩
      intro i hi h1 _ _
      exact testBit_setBit_of_ne _ _ _ hi h1
  · rw [buttonInterrupt_of_not_passed e now1 now2 hp]
    exact ⟨rfl, rfl, rfl, rfl, rfl, rfl, fun _ _ _ _ _ => rfl⟩

/-- C17: each interrupt handler writes only its own members.  For every state
and all readings, `encoderInterrupt` leaves the pressed, clicked and
double-clicked flags, `buttonState`, `buttonLastClick` and `debounceMicros`
unchanged; `buttonInterrupt`, accepted or rejected, leaves `count`, `diff`,
`lastEncoded` and the moved flag unchanged. -/
theorem C17_handlers_write_own_members (e : Encoder) (a b now1 now2 : Nat) :
    (((e.encoderInterrupt a b).isPressed false).1 = (e.isPressed false).1 ∧
      ((e.encoderInterrupt a b).isClicked false).1 = (e.isClicked false).1 ∧
      ((e.encoderInterrupt a b).isDoubleClicked false).1 = (e.isDoubleClicked false).1 ∧
      (e.encoderInterrupt a b).buttonState = e.buttonState ∧
      (e.encoderInterrupt a b).buttonLastClick = e.buttonLastClick ∧
      (e.encoderInterrupt a b).debounceMicros = e.debounceMicros) ∧
    ((e.buttonInterrupt now1 now2).count = e.count ∧
      (e.buttonInterrupt now1 now2).diff = e.diff ∧
      (e.buttonInterrupt now1 now2).lastEncoded = e.lastEncoded ∧
      ((e.buttonInterrupt now1 now2).isMoved false).1 = (e.isMoved false).1) := by
  have hf := encoderInterrupt_frame e a b
  have hb := buttonInterrupt_frame e now1 now2
  simp only [isPressed_fst, isClicked_fst, isDoubleClicked_fst, isMoved_fst]
  exact ⟨⟨encoderInterrupt_testBit e a b _ (by decide) (by decide),
      encoderInterrupt_testBit e a b _ (by decide) (by decide),
      encoderInterrupt_testBit e a b _ (by decide) (by decide), hf.1, hf.2.1, hf.2.2.1⟩,
    ⟨hb.1, hb.2.1, hb.2.2.1,
      hb.2.2.2.2.2.2 _ (by decide) (by decide) (by decide) (by decide)⟩⟩

/-- The difference `count - diff` modulo `2^16` is kept by `encoderInterrupt`. -/
theorem encoderInterrupt_offset (e : Encoder) (a b : Nat) :
    ((e.encoderInterrupt a b).count - (e.encoderInterrupt a b).diff) % 65536
      = (e.count - e.diff) % 65536 := by
  obtain ⟨hcw, hccw, hno⟩ := encoderInterrupt_cases e a b
  by_cases h1 : (e.encoderInterrupt a b).lastEncoded = 0b01001011
  · rw [hcw h1]; simp only; unfold toInt16; omega
  · by_cases h2 : (e.encoderInterrupt a b).lastEncoded = 0b10000111
    · rw [hccw h2]; simp only; unfold toInt16; omega
    · rw [hno h1 h2]

/-- The difference `count - diff` modulo `2^16` is kept by every interrupt
handler call. -/
theorem exec_offset_of_isInterrupt (e : Encoder) (op : Op) (h : op.isInterrupt = true) :
    ((e.exec op).count - (e.exec op).diff) % 65536 = (e.count - e.diff) % 65536 := by
  cases op with
  | encoderInterrupt a b => exact encoderInterrupt_offset e a b
  | buttonInterrupt now1 now2 =>
    have hb := buttonInterrupt_frame e now1 now2
    show ((e.buttonInterrupt now1 now2).count - (e.buttonInterrupt now1 now2).diff) % 65536 = _
    rw [hb.1, hb.2.1]
  | getCount => exact absurd h Bool.false_ne_true
  | setCount v => exact absurd h Bool.false_ne_true
  | getDiff c => exact absurd h Bool.false_ne_true
  | isFlag Y c => exact absurd h Bool.false_ne_true
  | clear => exact absurd h Bool.false_ne_true

/-- The difference `count - diff` modulo `2^16` is kept by every run of
interrupt handler calls. -/
theorem run_offset_of_isInterrupt (ops : List Op) (e : Encoder)
    (h : ∀ op ∈ ops, op.isInterrupt = true) :
    ((e.run ops).count - (e.run ops).diff) % 65536 = (e.count - e.diff) % 65536 := by
  induction ops generalizing e with
  | nil => rfl
  | cons op ops ih =>
    have h1 : (e.run (op :: ops)) = (e.exec op).run ops := rfl
    rw [h1, ih (e.exec op) (fun o ho => h o (List.mem_cons_of_mem _ ho))]
    exact exec_offset_of_isInterrupt e op (h op (List.mem_cons_self _ _))

/-- C16: `count` and `diff` move in lock-step.  For every state,
`(count - diff) mod 2^16` is unchanged by `encoderInterrupt`, by
`buttonInterrupt`, by each flag accessor and by `clear`.  Hence, after
`setCount(v)` followed by `getDiff(true)` and then any sequence of quadrature
samples and button edges, `getCount() - v` equals `getDiff(false)` modulo
`2^16`.  And `getCount()` right after `setCount(v)`, for `v` an `int16_t`,
returns `v`, with `diff` and the status register unchanged. -/
theorem C16_count_diff_lockstep (e : Encoder) (v : Int) (ops : List Op)
    (hv : -32768 ≤ v ∧ v ≤ 32767) (hops : ∀ op ∈ ops, op.isInterrupt = true) :
    (∀ a b : Nat, ((e.encoderInterrupt a b).count - (e.encoderInterrupt a b).diff) % 65536
      = (e.count - e.diff) % 65536) ∧
    (∀ now1 now2 : Nat,
      ((e.buttonInterrupt now1 now2).count - (e.buttonInterrupt now1 now2).diff) % 65536
        = (e.count - e.diff) % 65536) ∧
    (∀ (X : Flag) (c : Bool), ((e.isFlag X c).2.count - (e.isFlag X c).2.diff) % 65536
      = (e.count - e.diff) % 65536) ∧
    ((e.clear.count - e.clear.diff) % 65536 = (e.count - e.diff) % 65536) ∧
    ((((e.setCount v).getDiff true).2.run ops).getCount - v) % 65536
      = ((((e.setCount v).getDiff true).2.run ops).getDiff false).1 % 65536 ∧
    ((e.setCount v).getCount = v ∧ (e.setCount v).diff = e.diff ∧
      (e.setCount v).statusRegister = e.statusRegister) := by
  refine ⟨encoderInterrupt_offset e, ?_, ?_, rfl, ?_, ?_, rfl, rfl⟩
  · intro now1 now2
    have hb := buttonInterrupt_frame e now1 now2
    rw [hb.1, hb.2.1]
  · intro X c
    rw [isFlag_snd]
    cases c <;> rfl
  · have h := run_offset_of_isInterrupt ops ((e.setCount v).getDiff true).2 hops
    have h0 : ((e.setCount v).getDiff true).2.count = toInt16 v := rfl
    have h1 : ((e.setCount v).getDiff true).2.diff = 0 := rfl
    rw [h0, h1] at h
    show ((((e.setCount v).getDiff true).2.run ops).count - v) % 65536
      = (((e.setCount v).getDiff true).2.run ops).diff % 65536
    unfold toInt16 at h
    omega
  · show toInt16 v = v
    unfold toInt16
    omega

/-- Witness for C16: after `setCount(100)` and `getDiff(true)`, a clockwise
cycle with an accepted button edge in the middle leaves `getCount() = 101`
and `getDiff(false) = 1`. -/
theorem C16_count_diff_lockstep_witness :
    (-32768 ≤ (100 : Int) ∧ (100 : Int) ≤ 32767) ∧
    ((((setupState.setCount 100).getDiff true).2.run
        [Op.encoderInterrupt 0 1, Op.encoderInterrupt 0 0, Op.buttonInterrupt 10000 10000,
          Op.encoderInterrupt 1 0, Op.encoderInterrupt 1 1]).getCount - 100) % 65536
      = ((((setupState.setCount 100).getDiff true).2.run
        [Op.encoderInterrupt 0 1, Op.encoderInterrupt 0 0, Op.buttonInterrupt 10000 10000,
          Op.encoderInterrupt 1 0, Op.encoderInterrupt 1 1]).getDiff false).1 % 65536 ∧
    (setupState.setCount 100).getCount = 100 :=
  have h := C16_count_diff_lockstep setupState 100
    [Op.encoderInterrupt 0 1, Op.encoderInterrupt 0 0, Op.buttonInterrupt 10000 10000,
      Op.encoderInterrupt 1 0, Op.encoderInterrupt 1 1] (by decide) (by decide)
  ⟨by decide, h.2.2.2.2.1, h.2.2.2.2.2.1⟩

/-! ## Spacing of recognized indents -/

/-- One shift of the history lowers `quietSteps` by at most one, and while
`quietSteps` is positive the shifted history is not a pattern. -/
theorem quietSteps_shift (h c : Nat) (hc : c < 4) :
    quietSteps h ≤ quietSteps ((4 * h + c) % 256) + 1 ∧
    (1 ≤ quietSteps h → (4 * h + c) % 256 ≠ 0b01001011 ∧ (4 * h + c) % 256 ≠ 0b10000111) ∧
    ((4 * h + c) % 256 = 0b01001011 ∨ (4 * h + c) % 256 = 0b10000111 →
      quietSteps ((4 * h + c) % 256) = 3) ∧
    quietSteps h ≤ 3 := by
  unfold quietSteps
  refine ⟨?_, ?_, ?_, ?_⟩
  · split_ifs <;> omega
  · split_ifs <;> omega
  · split_ifs <;> omega
  · split_ifs <;> omega

/-- A step that changes `count` completes a pattern. -/
theorem lastEncoded_of_count_ne (e : Encoder) (a b : Nat)
    (h : (e.encoderInterrupt a b).count ≠ e.count) :
    (e.encoderInterrupt a b).lastEncoded = 0b01001011 ∨
    (e.encoderInterrupt a b).lastEncoded = 0b10000111 := by
  by_contra hn
  push_neg at hn
  apply h
  rw [(encoderInterrupt_cases e a b).2.2 hn.1 hn.2]

/-- A step that changes `count` has the reading `a = 1, b = 1`. -/
theorem reading_of_count_ne (e : Encoder) (a b : Nat) (ha : a ≤ 1) (hb : b ≤ 1)
    (h : (e.encoderInterrupt a b).count ≠ e.count) : a = 1 ∧ b = 1 := by
  by_contra hn
  apply h
  rw [encoderInterrupt_of_ne_three e a b ha hb (by omega)]

/-- While `quietSteps` of the history covers the readings to come, none of
them changes `count`. -/
theorem indentCount_eq_zero (samples : List (Nat × Nat)) (e : Encoder)
    (hs : ∀ x ∈ samples, x.1 ≤ 1 ∧ x.2 ≤ 1) (hq : samples.length ≤ quietSteps e.lastEncoded) :
    e.indentCount samples = 0 := by
  induction samples generalizing e with
  | nil => rfl
  | cons r rs ih =>
    have hr := hs r (List.mem_cons_self _ _)
    have hl := encoderInterrupt_lastEncoded_arith e r.1 r.2 hr.1 hr.2
    have hsh := quietSteps_shift e.lastEncoded (2 * r.1 + r.2) (by omega)
    rw [List.length_cons] at hq
    have hno : (e.encoderInterrupt r.1 r.2).count = e.count := by
      by_contra hne
      have hm := lastEncoded_of_count_ne e r.1 r.2 hne
      rw [hl] at hm
      have := hsh.2.1 (by omega)
      tauto
    have hrec := ih (e.encoderInterrupt r.1 r.2)
      (fun x hx => hs x (List.mem_cons_of_mem _ hx)) (by rw [hl]; omega)
    show (if (e.encoderInterrupt r.1 r.2).count ≠ e.count then 1 else 0)
      + (e.encoderInterrupt r.1 r.2).indentCount rs = 0
    rw [hrec, if_neg (by simpa using hno)]

/-- Four readings per change of `count`, with the readings already spent
since the last pattern credited through `quietSteps`. -/
theorem indentCount_bound (samples : List (Nat × Nat)) (e : Encoder)
    (hs : ∀ x ∈ samples, x.1 ≤ 1 ∧ x.2 ≤ 1) :
    4 * e.indentCount samples + quietSteps e.lastEncoded ≤ samples.length + 3 := by
  induction samples generalizing e with
  | nil =>
    have := (quietSteps_shift e.lastEncoded 0 (by decide)).2.2.2
    show 4 * 0 + quietSteps e.lastEncoded ≤ 0 + 3
    omega
  | cons r rs ih =>
    have hr := hs r (List.mem_cons_self _ _)
    have hl := encoderInterrupt_lastEncoded_arith e r.1 r.2 hr.1 hr.2
    have hsh := quietSteps_shift e.lastEncoded (2 * r.1 + r.2) (by omega)
    have hrec := ih (e.encoderInterrupt r.1 r.2) (fun x hx => hs x (List.mem_cons_of_mem _ hx))
    rw [hl] at hrec
    have hdef : e.indentCount (r :: rs) =
        (if (e.encoderInterrupt r.1 r.2).count ≠ e.count then 1 else 0)
          + (e.encoderInterrupt r.1 r.2).indentCount rs := rfl
    rw [hdef, List.length_cons]
    by_cases hne : (e.encoderInterrupt r.1 r.2).count ≠ e.count
    · have hm := lastEncoded_of_count_ne e r.1 r.2 hne
      rw [hl] at hm
      have h3 := hsh.2.2.1 hm
      have h0 : quietSteps e.lastEncoded = 0 := by
        by_contra hq
        have := hsh.2.1 (by omega)
        tauto
      rw [if_pos hne]
      omega
    · rw [if_neg hne]
      omega

/-- Each change of `count` moves `count` and `diff` by one, so their sizes
grow by at most the number of changes. -/
theorem natAbs_feed_le (samples : List (Nat × Nat)) (e : Encoder) :
    (e.feed samples).count.natAbs ≤ e.count.natAbs + e.indentCount samples ∧
    (e.feed samples).diff.natAbs ≤ e.diff.natAbs + e.indentCount samples := by
  induction samples generalizing e with
  | nil => exact ⟨Nat.le_refl _, Nat.le_refl _⟩
  | cons r rs ih =>
    have hrec := ih (e.encoderInterrupt r.1 r.2)
    have hfeed : e.feed (r :: rs) = (e.encoderInterrupt r.1 r.2).feed rs := rfl
    have hdef : e.indentCount (r :: rs) =
        (if (e.encoderInterrupt r.1 r.2).count ≠ e.count then 1 else 0)
          + (e.encoderInterrupt r.1 r.2).indentCount rs := rfl
    rw [hfeed, hdef]
    obtain ⟨hcw, hccw, hno⟩ := encoderInterrupt_cases e r.1 r.2
    have hstep : (e.encoderInterrupt r.1 r.2).count.natAbs
          ≤ e.count.natAbs + (if (e.encoderInterrupt r.1 r.2).count ≠ e.count then 1 else 0) ∧
        (e.encoderInterrupt r.1 r.2).diff.natAbs
          ≤ e.diff.natAbs + (if (e.encoderInterrupt r.1 r.2).count ≠ e.count then 1 else 0) := by
      by_cases h1 : (e.encoderInterrupt r.1 r.2).lastEncoded = 0b01001011
      · have hc : (e.encoderInterrupt r.1 r.2).count = toInt16 (e.count + 1) := by rw [hcw h1]
        have hd : (e.encoderInterrupt r.1 r.2).diff = toInt16 (e.diff + 1) := by rw [hcw h1]
        have hne : (e.encoderInterrupt r.1 r.2).count ≠ e.count := by
          rw [hc]; unfold toInt16; omega
        rw [if_pos hne, hc, hd]
        unfold toInt16
        omega
      · by_cases h2 : (e.encoderInterrupt r.1 r.2).lastEncoded = 0b10000111
        · have hc : (e.encoderInterrupt r.1 r.2).count = toInt16 (e.count - 1) := by rw [hccw h2]
          have hd : (e.encoderInterrupt r.1 r.2).diff = toInt16 (e.diff - 1) := by rw [hccw h2]
          have hne : (e.encoderInterrupt r.1 r.2).count ≠ e.count := by
            rw [hc]; unfold toInt16; omega
          rw [if_pos hne, hc, hd]
          unfold toInt16
          omega
        · have hc : (e.encoderInterrupt r.1 r.2).count = e.count := by rw [hno h1 h2]
          have hd : (e.encoderInterrupt r.1 r.2).diff = e.diff := by rw [hno h1 h2]
          rw [hc, hd]
          omega
    omega

/-- C18: recognized indents are at least four readings apart.  With all pin
readings in `{0, 1}`: from every state `e` (so from every state of a run that
starts at setup), when a step changes `count`, its reading is `a = 1, b = 1`
and none of the next three steps changes `count`; from the setup state, none
of the first three steps changes `count`; and after the `n` readings of
`samples` from the setup state the number of steps that changed `count`, and
the sizes of `count` and of `diff`, are at most `n / 4` (rounded down). -/
theorem C18_indents_four_apart (a b btn now : Nat) (e : Encoder) (r : Nat × Nat)
    (next samples : List (Nat × Nat))
    (hr : r.1 ≤ 1 ∧ r.2 ≤ 1) (hnext : ∀ x ∈ next, x.1 ≤ 1 ∧ x.2 ≤ 1)
    (hsamples : ∀ x ∈ samples, x.1 ≤ 1 ∧ x.2 ≤ 1) :
    ((e.encoderInterrupt r.1 r.2).count ≠ e.count → next.length ≤ 3 →
      (e.encoderInterrupt r.1 r.2).indentCount next = 0) ∧
    ((e.encoderInterrupt r.1 r.2).count ≠ e.count → r = (1, 1)) ∧
    (samples.length ≤ 3 → (encoderSetup a b btn now).1.indentCount samples = 0) ∧
    (encoderSetup a b btn now).1.indentCount samples ≤ samples.length / 4 ∧
    ((encoderSetup a b btn now).1.feed samples).count.natAbs ≤ samples.length / 4 ∧
    ((encoderSetup a b btn now).1.feed samples).diff.natAbs ≤ samples.length / 4 := by
  have hset : (encoderSetup a b btn now).1.count = 0 ∧ (encoderSetup a b btn now).1.diff = 0 ∧
      (encoderSetup a b btn now).1.lastEncoded = 0 := by
    unfold encoderSetup
    simp only
    split_ifs <;> exact ⟨rfl, rfl, rfl⟩
  have hq0 : quietSteps 0 = 3 := by decide
  have hbound := indentCount_bound samples (encoderSetup a b btn now).1 hsamples
  rw [hset.2.2, hq0] at hbound
  have habs := natAbs_feed_le samples (encoderSetup a b btn now).1
  rw [hset.1, hset.2.1] at habs
  have hcount : (encoderSetup a b btn now).1.indentCount samples ≤ samples.length / 4 := by
    omega
  refine ⟨?_, ?_, ?_, hcount, ?_, ?_⟩
  · intro hne hlen
    apply indentCount_eq_zero next _ hnext
    have hm := lastEncoded_of_count_ne e r.1 r.2 hne
    have hl := encoderInterrupt_lastEncoded_arith e r.1 r.2 hr.1 hr.2
    have hsh := quietSteps_shift e.lastEncoded (2 * r.1 + r.2) (by omega)
    rw [hl] at hm ⊢
    rw [hsh.2.2.1 hm]
    exact hlen
  · intro hne
    have h := reading_of_count_ne e r.1 r.2 hr.1 hr.2 hne
    exact Prod.ext h.1 h.2
  · intro hlen
    apply indentCount_eq_zero samples _ hsamples
    rw [hset.2.2, hq0]
    exact hlen
  · have := habs.1
    simp only [Int.natAbs_zero, Nat.zero_add] at this
    omega
  · have := habs.2
    simp only [Int.natAbs_zero, Nat.zero_add] at this
    omega

/-- Witness for C18: the step that completes the clockwise pattern changes
`count`, and the three readings `01, 00, 11` after it do not; eight readings
from the setup state give at most two changes. -/
theorem C18_indents_four_apart_witness :
    ({ setupState with lastEncoded := 0b010010 }.encoderInterrupt 1 1).count
      ≠ { setupState with lastEncoded := 0b010010 }.count ∧
    ({ setupState with lastEncoded := 0b010010 }.encoderInterrupt 1 1).indentCount
      [(0, 1), (0, 0), (1, 1)] = 0 ∧
    (encoderSetup 2 3 4 0).1.indentCount
      [(0, 1), (0, 0), (1, 0), (1, 1), (1, 0), (0, 0), (0, 1), (1, 1)] ≤ 8 / 4 :=
  have h := C18_indents_four_apart 2 3 4 0 { setupState with lastEncoded := 0b010010 } (1, 1)
    [(0, 1), (0, 0), (1, 1)] [(0, 1), (0, 0), (1, 0), (1, 1), (1, 0), (0, 0), (0, 1), (1, 1)]
    (by decide) (by decide) (by decide)
  ⟨by decide, h.1 (by decide) (by decide), h.2.2.2.1⟩

/-! ## Alternation of accepted button edges -/

theorem feedButton_append_singleton (e : Encoder) (pre : List (Nat × Nat)) (t : Nat × Nat) :
    e.feedButton (pre ++ [t]) = (e.feedButton pre).buttonInterrupt t.1 t.2 := by
  simp [Encoder.feedButton, List.foldl_append]

theorem acceptedCount_append_singleton (pre : List (Nat × Nat)) (e : Encoder) (t : Nat × Nat) :
    e.acceptedCount (pre ++ [t]) =
      e.acceptedCount pre + (if (e.feedButton pre).debouncePassed t.1 then 1 else 0) := by
  induction pre generalizing e with
  | nil =>
    show (if e.debouncePassed t.1 then 1 else 0) + 0 = 0 + (if e.debouncePassed t.1 then 1 else 0)
    omega
  | cons p ps ih =>
    have h1 : e.acceptedCount (p :: ps ++ [t]) =
        (if e.debouncePassed p.1 then 1 else 0)
          + (e.buttonInterrupt p.1 p.2).acceptedCount (ps ++ [t]) := rfl
    have h2 : e.acceptedCount (p :: ps) =
        (if e.debouncePassed p.1 then 1 else 0)
          + (e.buttonInterrupt p.1 p.2).acceptedCount ps := rfl
    have h3 : e.feedButton (p :: ps) = (e.buttonInterrupt p.1 p.2).feedButton ps := rfl
    rw [h1, h2, h3, ih]
    omega

/-- The invariant of a run of button edges from a released state: after an
even number of accepted edges the button is released; after an odd number it
is pressed, and `debounceMicros` is the time stored by an earlier accepted
edge that arrived after an even number of accepted edges (a press). -/
theorem feedButton_invariant (e : Encoder) (he : e.buttonState = HIGH)
    (pre : List (Nat × Nat)) :
    (e.acceptedCount pre % 2 = 0 ∧ (e.feedButton pre).buttonState = HIGH) ∨
    (e.acceptedCount pre % 2 = 1 ∧ (e.feedButton pre).buttonState = LOW ∧
      ∃ (pre1 : List (Nat × Nat)) (p : Nat × Nat) (mid : List (Nat × Nat)),
        pre = pre1 ++ p :: mid ∧ (e.feedButton pre1).debouncePassed p.1 ∧
        e.acceptedCount pre1 % 2 = 0 ∧ (e.feedButton pre).debounceMicros = toULong p.2) := by
  induction pre using List.reverseRecOn with
  | nil => exact Or.inl ⟨rfl, he⟩
  | append_singleton pre t ih =>
    rw [feedButton_append_singleton, acceptedCount_append_singleton]
    by_cases hp : (e.feedButton pre).debouncePassed t.1
    · rw [if_pos hp]
      rcases ih with ⟨hc, hs⟩ | ⟨hc, hs, _⟩
      · right
        have hs' : (e.feedButton pre).buttonState ≠ LOW := by rw [hs]; decide
        rw [buttonInterrupt_press _ t.1 t.2 hp hs']
        exact ⟨by omega, rfl, pre, t, [], rfl, hp, hc, rfl⟩
      · left
        rw [buttonInterrupt_release _ t.1 t.2 hp hs]
        exact ⟨by omega, rfl⟩
    · rw [if_neg hp, buttonInterrupt_of_not_passed _ t.1 t.2 hp]
      rcases ih with ⟨hc, hs⟩ | ⟨hc, hs, pre1, p, mid, hpre, hpp, hc1, hd⟩
      · exact Or.inl ⟨by omega, hs⟩
      · right
        refine ⟨by omega, hs, pre1, p, mid ++ [t], ?_, hpp, hc1, hd⟩
        rw [hpre]
        simp

/-- C19: accepted button edges strictly alternate.  In a run of
`buttonInterrupt` calls `pre` from the setup state followed by one more edge
`t`: the button is pressed (`buttonState = LOW`) exactly when an odd number
of edges of `pre` was accepted, and released when the number is even; when
`t` is accepted after an even number of accepted edges (it is the 1st, 3rd,
5th, ... accepted edge) it acts as a press: `buttonState` becomes `LOW`, the
pressed flag is set and the clicked flag is as it was; when `t` is accepted
after an odd number (the 2nd, 4th, ...) it acts as a release: `buttonState`
becomes `HIGH` and the clicked flag is set.  The clicked flag only turns on at
such a release, and then `pre` holds an earlier edge `p` that was accepted as
a press and whose stored time lies at least 10,000 microseconds (modulo
`2^32`) before `t`. -/
theorem C19_accepted_edges_alternate (a b btn now : Nat) (pre : List (Nat × Nat))
    (t : Nat × Nat) :
    (((encoderSetup a b btn now).1.feedButton pre).buttonState = LOW ↔
      (encoderSetup a b btn now).1.acceptedCount pre % 2 = 1) ∧
    (((encoderSetup a b btn now).1.feedButton pre).buttonState = HIGH ↔
      (encoderSetup a b btn now).1.acceptedCount pre % 2 = 0) ∧
    (((encoderSetup a b btn now).1.feedButton pre).debouncePassed t.1 →
      (encoderSetup a b btn now).1.acceptedCount pre % 2 = 0 →
      (((encoderSetup a b btn now).1.feedButton pre).buttonInterrupt t.1 t.2).buttonState
        = LOW ∧
      ((((encoderSetup a b btn now).1.feedButton pre).buttonInterrupt t.1 t.2).isPressed
        false).1 = true ∧
      ((((encoderSetup a b btn now).1.feedButton pre).buttonInterrupt t.1 t.2).isClicked
        false).1 = (((encoderSetup a b btn now).1.feedButton pre).isClicked false).1) ∧
    (((encoderSetup a b btn now).1.feedButton pre).debouncePassed t.1 →
      (encoderSetup a b btn now).1.acceptedCount pre % 2 = 1 →
      (((encoderSetup a b btn now).1.feedButton pre).buttonInterrupt t.1 t.2).buttonState
        = HIGH ∧
      ((((encoderSetup a b btn now).1.feedButton pre).buttonInterrupt t.1 t.2).isClicked
        false).1 = true) ∧
    ((((encoderSetup a b btn now).1.feedButton pre).isClicked false).1 = false →
      ((((encoderSetup a b btn now).1.feedButton pre).buttonInterrupt t.1 t.2).isClicked
        false).1 = true →
      ((encoderSetup a b btn now).1.feedButton pre).debouncePassed t.1 ∧
      (encoderSetup a b btn now).1.acceptedCount pre % 2 = 1 ∧
      ∃ (pre1 : List (Nat × Nat)) (p : Nat × Nat) (mid : List (Nat × Nat)),
        pre = pre1 ++ p :: mid ∧
        ((encoderSetup a b btn now).1.feedButton pre1).debouncePassed p.1 ∧
        (encoderSetup a b btn now).1.acceptedCount pre1 % 2 = 0 ∧
        10000 ≤ ulongSub t.1 p.2) := by
  set s0 := (encoderSetup a b btn now).1 with hs0def
  set e := s0.feedButton pre with hedef
  have hs0 : s0.buttonState = HIGH := by
    show (encoderSetup a b btn now).1.buttonState = HIGH
    unfold encoderSetup
    simp only
    split_ifs <;> rfl
  have hinv := feedButton_invariant s0 hs0 pre
  have hHL : (HIGH : Int) ≠ LOW := by decide
  have hstate : (e.buttonState = LOW ↔ s0.acceptedCount pre % 2 = 1) ∧
      (e.buttonState = HIGH ↔ s0.acceptedCount pre % 2 = 0) := by
    rcases hinv with ⟨hc, hs⟩ | ⟨hc, hs, _⟩
    · have hs' : e.buttonState = HIGH := hs
      rw [hs']
      exact ⟨⟨fun h => absurd h hHL, fun h => by omega⟩, ⟨fun _ => hc, fun _ => rfl⟩⟩
    · have hs' : e.buttonState = LOW := hs
      rw [hs']
      exact ⟨⟨fun _ => hc, fun _ => rfl⟩, ⟨fun h => absurd h.symm hHL, fun h => by omega⟩⟩
  have hpress : e.debouncePassed t.1 → s0.acceptedCount pre % 2 = 0 →
      (e.buttonInterrupt t.1 t.2).buttonState = LOW ∧
      ((e.buttonInterrupt t.1 t.2).isPressed false).1 = true ∧
      ((e.buttonInterrupt t.1 t.2).isClicked false).1 = (e.isClicked false).1 := by
    intro hp hc
    have hs : e.buttonState ≠ LOW := by rw [hstate.2.2 hc]; exact hHL
    rw [isPressed_fst, isClicked_fst, isClicked_fst, buttonInterrupt_press e t.1 t.2 hp hs]
    exact ⟨rfl, testBit_setBit_self _ _ (by decide),
      testBit_setBit_of_ne _ _ _ (by decide) (by decide)⟩
  have hrelease : e.debouncePassed t.1 → s0.acceptedCount pre % 2 = 1 →
      (e.buttonInterrupt t.1 t.2).buttonState = HIGH ∧
      ((e.buttonInterrupt t.1 t.2).isClicked false).1 = true := by
    intro hp hc
    have hs : e.buttonState = LOW := hstate.1.2 hc
    have hbits := release_status_bits e.statusRegister (ulongSub t.2 e.buttonLastClick)
    rw [isClicked_fst, buttonInterrupt_release e t.1 t.2 hp hs]
    exact ⟨rfl, hbits.1⟩
  refine ⟨hstate.1, hstate.2, hpress, hrelease, ?_⟩
  intro hold hnew
  have hp : e.debouncePassed t.1 := by
    by_contra hn
    rw [buttonInterrupt_of_not_passed e t.1 t.2 hn, hold] at hnew
    exact Bool.false_ne_true hnew
  have hodd : s0.acceptedCount pre % 2 = 1 := by
    by_contra hn
    have h3 := (hpress hp (by omega)).2.2
    rw [hold, hnew] at h3
    exact Bool.false_ne_true h3.symm
  refine ⟨hp, hodd, ?_⟩
  rcases hinv with ⟨hc, _⟩ | ⟨_, _, pre1, p, mid, hpre, hpp, hc1, hd⟩
  · omega
  · refine ⟨pre1, p, mid, hpre, hpp, hc1, ?_⟩
    have hd' : e.debounceMicros = toULong p.2 := hd
    have h := (debouncePassed_iff e t.1).1 hp
    rw [hd', ulongSub_toULong_right] at h
    exact h.1

/-- Witness for C19: after setup at time `0` and an accepted edge at 10,000
microseconds (a press), the edge at 20,000 microseconds is accepted as a
release and sets the clicked flag. -/
theorem C19_accepted_edges_alternate_witness :
    ((encoderSetup 2 3 4 0).1.feedButton [(10000, 10000)]).buttonState = LOW ∧
    ((encoderSetup 2 3 4 0).1.acceptedCount [(10000, 10000)]) % 2 = 1 ∧
    (((encoderSetup 2 3 4 0).1.feedButton [(10000, 10000)]).buttonInterrupt
      20000 20000).buttonState = HIGH ∧
    ((((encoderSetup 2 3 4 0).1.feedButton [(10000, 10000)]).buttonInterrupt
      20000 20000).isClicked false).1 = true :=
  have h := C19_accepted_edges_alternate 2 3 4 0 [(10000, 10000)] (20000, 20000)
  ⟨h.1.2 (by decide), by decide, (h.2.2.2.1 (by decide) (by decide)).1,
    (h.2.2.2.1 (by decide) (by decide)).2⟩

/-! ## The pressed flag as a latch -/

/-- One call moves the pressed flag as `specPressedLatch` says. -/
theorem isPressed_exec (e : Encoder) (op : Op) :
    ((e.exec op).isPressed false).1 = e.specPressedLatch (e.isPressed false).1 op := by
  rw [isPressed_fst, isPressed_fst]
  cases op with
  | encoderInterrupt a b =>
    exact encoderInterrupt_testBit e a b _ (by decide) (by decide)
  | buttonInterrupt now1 now2 =>
    show (e.buttonInterrupt now1 now2).statusRegister.testBit statusButtonPressedBit =
      if e.debouncePassed now1 ∧ e.buttonState ≠ LOW then true
      else e.statusRegister.testBit statusButtonPressedBit
    by_cases hp : e.debouncePassed now1
    · by_cases hs : e.buttonState = LOW
      · rw [if_neg (fun h => h.2 hs), buttonInterrupt_release e now1 now2 hp hs]
        exact (release_status_bits e.statusRegister (ulongSub now2 e.buttonLastClick)).2.2.2.1
      · rw [if_pos ⟨hp, hs⟩, buttonInterrupt_press e now1 now2 hp hs]
        exact testBit_setBit_self _ _ (by decide)
    · rw [if_neg (fun h => hp h.1), buttonInterrupt_of_not_passed e now1 now2 hp]
  | getCount => rfl
  | setCount v => rfl
  | getDiff c => cases c <;> rfl
  | isFlag Y c =>
    show (e.isFlag Y c).2.statusRegister.testBit statusButtonPressedBit = _
    rw [isFlag_snd]
    cases c with
    | false => cases Y <;> rfl
    | true =>
      cases Y with
      | Pressed => exact testBit_clearBit_self _ _
      | Moved => exact testBit_clearBit_of_ne _ _ _ (by decide) (by decide)
      | Clicked => exact testBit_clearBit_of_ne _ _ _ (by decide) (by decide)
      | DoubleClicked => exact testBit_clearBit_of_ne _ _ _ (by decide) (by decide)
  | clear => exact Nat.zero_testBit _

/-- After any sequence of calls the pressed flag is the latch of
`specPressedAfter`. -/
theorem isPressed_run (ops : List Op) (e : Encoder) :
    ((e.run ops).isPressed false).1 = e.specPressedAfter (e.isPressed false).1 ops := by
  induction ops generalizing e with
  | nil => rfl
  | cons op ops ih =>
    have h1 : e.run (op :: ops) = (e.exec op).run ops := rfl
    have h2 : e.specPressedAfter (e.isPressed false).1 (op :: ops) =
        (e.exec op).specPressedAfter (e.specPressedLatch (e.isPressed false).1 op) ops := rfl
    rw [h1, h2, ih (e.exec op), isPressed_exec]

/-- C12 (as corrected): `isPressed` reports the latched pressed flag, not the
button state.  In every state reached from setup by a sequence `ops` of
interrupt handler and accessor calls, `isPressed(false)` returns true exactly
when the latch of `specPressedAfter` is on: some accepted press has occurred
with no `isPressed(true)` and no `clear()` after it.  So when, in such a state
with the button released, an edge is accepted and then another one, the button
is pressed and then released again (`buttonState = HIGH`), and
`isPressed(false)` returns true after each of the two. -/
theorem C12_isPressed_latched (a b btn now : Nat) (ops : List Op) (now1 now2 now3 now4 : Nat) :
    (((encoderSetup a b btn now).1.run ops).isPressed false).1
      = (encoderSetup a b btn now).1.specPressedAfter false ops ∧
    (((encoderSetup a b btn now).1.run ops).buttonState ≠ LOW →
      ((encoderSetup a b btn now).1.run ops).debouncePassed now1 →
      (((encoderSetup a b btn now).1.run ops).buttonInterrupt now1 now2).debouncePassed now3 →
      ((((encoderSetup a b btn now).1.run ops).buttonInterrupt now1 now2).buttonState = LOW ∧
        ((((encoderSetup a b btn now).1.run ops).buttonInterrupt now1 now2).isPressed
          false).1 = true ∧
        ((((encoderSetup a b btn now).1.run ops).buttonInterrupt now1 now2).buttonInterrupt
          now3 now4).buttonState = HIGH ∧
        (((((encoderSetup a b btn now).1.run ops).buttonInterrupt now1 now2).buttonInterrupt
          now3 now4).isPressed false).1 = true)) := by
  have hset : ((encoderSetup a b btn now).1.isPressed false).1 = false := by
    have h0 : (encoderSetup a b btn now).1.statusRegister = 0 := by
      unfold encoderSetup
      simp only
      split_ifs <;> rfl
    rw [isPressed_fst, h0]
    exact Nat.zero_testBit _
  constructor
  · rw [isPressed_run, hset]
  · intro hs hp1 hp3
    set e := (encoderSetup a b btn now).1.run ops with hedef
    have hpress := buttonInterrupt_press e now1 now2 hp1 hs
    have hlow : (e.buttonInterrupt now1 now2).buttonState = LOW := by rw [hpress]
    have hflag : ((e.buttonInterrupt now1 now2).isPressed false).1 = true := by
      rw [isPressed_fst, hpress]
      exact testBit_setBit_self _ _ (by decide)
    have hrel := buttonInterrupt_release (e.buttonInterrupt now1 now2) now3 now4 hp3 hlow
    refine ⟨hlow, hflag, by rw [hrel], ?_⟩
    rw [isPressed_fst] at hflag ⊢
    rw [hrel]
    simp only
    rw [(release_status_bits (e.buttonInterrupt now1 now2).statusRegister
      (ulongSub now4 (e.buttonInterrupt now1 now2).buttonLastClick)).2.2.2.1]
    exact hflag

/-- Witness for C12: after setup at time `0`, a press at 10,000 and a release
at 20,000 microseconds leave `isPressed(false)` true with the button released;
the latch is on after the press and off again after `isPressed(true)`. -/
theorem C12_isPressed_latched_witness :
    (((encoderSetup 2 3 4 0).1.run []).buttonInterrupt 10000 10000).buttonState = LOW ∧
    ((((encoderSetup 2 3 4 0).1.run []).buttonInterrupt 10000 10000).buttonInterrupt
      20000 20000).buttonState = HIGH ∧
    (((((encoderSetup 2 3 4 0).1.run []).buttonInterrupt 10000 10000).buttonInterrupt
      20000 20000).isPressed false).1 = true ∧
    (((encoderSetup 2 3 4 0).1.run
      [Op.buttonInterrupt 10000 10000, Op.isFlag Flag.Pressed true]).isPressed false).1 = false :=
  have h := (C12_isPressed_latched 2 3 4 0 [] 10000 10000 20000 20000).2
    (by decide) (by decide) (by decide)
  ⟨h.1, h.2.2.1, h.2.2.2,
    (C12_isPressed_latched 2 3 4 0 [Op.buttonInterrupt 10000 10000, Op.isFlag Flag.Pressed true]
      0 0 0 0).1.trans (by decide)⟩

/-! ## An interrupt handler inside a foreground accessor -/

/-- With a call that changes nothing in place of the handler, the preempted
executions are the plain accessors. -/
theorem preempted_by_getCount (e : Encoder) (X : Flag) (c : Bool) :
    e.getDiffPreempted c Op.getCount = e.getDiff c ∧
    e.isFlagPreempted X Op.getCount = e.isFlag X true := by
  constructor
  · rfl
  · cases X <;> rfl

/-- What a handler does to `diff` between the read and the clear of
`getDiff(true)` is overwritten: the value returned is the old `diff` and
`diff` is `0` afterwards, whatever the handler did; its change to `count`
stays. -/
theorem getDiffPreempted_true (e : Encoder) (isr : Op) :
    (e.getDiffPreempted true isr).1 = e.diff ∧
    (e.getDiffPreempted true isr).2.diff = 0 ∧
    (e.getDiffPreempted true isr).2.count = (e.exec isr).count :=
  ⟨rfl, rfl, rfl⟩

/-- What a handler does to the status register between the read and the
write-back of `isX(true)` is overwritten: every flag reads afterwards as it
does after the plain `isX(true)`, whatever the handler set. -/
theorem isFlagPreempted_flags (e : Encoder) (X Y : Flag) (isr : Op) :
    ((e.isFlagPreempted X isr).2.isFlag Y false).1 = ((e.isFlag X true).2.isFlag Y false).1 := by
  rw [isFlag_fst, isFlag_fst, isFlag_snd]
  rfl

/-- C15 (the code at the failing inputs).  First input: `count = 5`,
`diff = 5`, history `0b010010`, and `encoderInterrupt` with reading
`a = 1, b = 1` running between the two statements of `getDiff(true)`.  The
handler counts an indent (`count` becomes 6), yet `getDiff` returns 5 and
leaves `diff = 0`: the indent is neither in the returned value nor in `diff`,
whereas with the handler wholly before or wholly after the accessor the
returned value and the remaining `diff` add up to 6.  Second input: the moved
flag set, button released, and `buttonInterrupt` at 10,000 microseconds
running between the read and the write-back of `isMoved(true)`.  The handler
accepts the press (`buttonState = LOW`) and sets the pressed flag, yet after
the accessor completes the pressed flag reads false. -/
theorem C15_interrupt_inside_accessor_loses_event :
    (({ setupState with count := 5, diff := 5, lastEncoded := 0b010010 }.getDiffPreempted true
        (Op.encoderInterrupt 1 1)).1 = 5 ∧
      ({ setupState with count := 5, diff := 5, lastEncoded := 0b010010 }.getDiffPreempted true
        (Op.encoderInterrupt 1 1)).2.diff = 0 ∧
      ({ setupState with count := 5, diff := 5, lastEncoded := 0b010010 }.getDiffPreempted true
        (Op.encoderInterrupt 1 1)).2.count = 6 ∧
      ({ setupState with count := 5, diff := 5, lastEncoded := 0b010010 }.exec
        (Op.encoderInterrupt 1 1)).diff = 6 ∧
      ((({ setupState with count := 5, diff := 5, lastEncoded := 0b010010 }.exec
        (Op.encoderInterrupt 1 1)).getDiff true).1 = 6) ∧
      ((({ setupState with count := 5, diff := 5, lastEncoded := 0b010010 }.getDiff true).2.exec
        (Op.encoderInterrupt 1 1)).diff = 1)) ∧
    (({ setupState with statusRegister := 1 }.exec
        (Op.buttonInterrupt 10000 10000)).buttonState = LOW ∧
      (({ setupState with statusRegister := 1 }.exec
        (Op.buttonInterrupt 10000 10000)).isFlag Flag.Pressed false).1 = true ∧
      ({ setupState with statusRegister := 1 }.isFlagPreempted Flag.Moved
        (Op.buttonInterrupt 10000 10000)).1 = true ∧
      ({ setupState with statusRegister := 1 }.isFlagPreempted Flag.Moved
        (Op.buttonInterrupt 10000 10000)).2.buttonState = LOW ∧
      (({ setupState with statusRegister := 1 }.isFlagPreempted Flag.Moved
        (Op.buttonInterrupt 10000 10000)).2.isFlag Flag.Pressed false).1 = false) := by
  decide

end Rencoder
